import Mathlib

/-!
# Vertical-equilibrium upscaling (opm-verteq): embedding and checked properties

Sources embedded: `opm/verteq/upscale.cpp` (`gather`, `wgt_dpt`, `num_rows`,
`bottom`) and `opm/verteq/props.cpp` (`VertEqPropsImpl`: constructor,
`upd_res_sat`, `check_res_sat`, `res_elev`, `satRange`, `relperm`, `capPress`).

Conventions of the embedding.

* `double` is embedded as `ℚ`: every statement is about exact arithmetic, rounding
  is not modelled.
* `int` indices are embedded as `Nat` (column, row and cell indices and the
  run-length offsets are non-negative; no claim depends on overflow).
* A raw pointer (`double*`, `const int*`) is embedded as the memory it gives access
  to, a total function of the index (`Ptr = Nat → ℚ`); a store through the pointer
  is `assign`.
* A `std::vector` is embedded as a `List`, so that it has a size. `v[i] = x` is
  `List.set` and a read `v[i]` is `List.getD`/`v[i]?`. `operator[]` is unchecked in
  the source and an out-of-range access is undefined there; the embedding drops an
  out-of-range store, and statements about stored entries say where they need the
  index to be in range.
* `for (int i = 0; i < n; ++i) body` is `forLoop body n`.
-/

namespace VertEq

/-! ## Generic building blocks -/

/-- Counting loop `for (int i = 0; i < n; ++i) s = body i s`. -/
def forLoop {σ : Type} (body : Nat → σ → σ) : Nat → σ → σ
  | 0, s => s
  | n + 1, s => body n (forLoop body n s)

/-- Memory seen through a `double*`. -/
abbrev Ptr := Nat → ℚ

/-- Store through a pointer: `p[i] = v`. -/
def assign (p : Ptr) (i : Nat) (v : ℚ) : Ptr :=
  fun j => if j = i then v else p j

/-- Embedding of `std::fill (p, p + n, v)`: stores `v` in `p[0] .. p[n-1]`, front to back. -/
def fill (p : Ptr) (n : Nat) (v : ℚ) : Ptr :=
  forLoop (fun i q => assign q i v) n p

/-! ## Collaborators that are only declared outside the two source files -/

/-- Modelled from the spec: the column topology `TopSurf` (declared in `topsurf.hpp`,
which is not among the sources). Spec section 6: total column count, per-column
cell-count offsets into the flattened arrays, the flattened fine-cell-index list, the
per-cell thickness array in the same layout, the per-column total thickness and the
maximum number of cells of a column. The arrays are raw pointers. -/
structure TopSurf where
  number_of_cells : Nat
  col_cellpos : Nat → Nat
  col_cells : Nat → Nat
  dz : Ptr
  h_tot : Ptr
  max_vert_res : Nat

/-- Modelled from the spec: `size (col)` of a run-length view (`rlw_int`, `rlw_double`
from `runlen.hpp`, not among the sources): the number of entries between the column's
start offset and the next column's start offset. -/
def rlw_size (ts : TopSurf) (col : Nat) : Nat :=
  ts.col_cellpos (col + 1) - ts.col_cellpos col

/-- Modelled from the spec: `view[col]` of a run-length view over the flattened array
`data`: the pointer to the column's first entry, `data + pos[col]`. -/
def rlw_at {α : Type} (ts : TopSurf) (data : Nat → α) (col : Nat) : Nat → α :=
  fun row => data (ts.col_cellpos col + row)

/-- Modelled from the spec: the fine property source `IncompPropertiesInterface`
(an external interface): phase count, porosity array, permeability array (nine
entries per cell) and the saturation-range query. The query
`satRange (n, cells, smin, smax)` writes through its two output pointers; it is
embedded as the function from its arguments and the prior output memory to the
output memory after the call. -/
structure IncompPropertiesInterface where
  numPhases : Nat
  porosity : Ptr
  permeability : Ptr
  satRange : Nat → (Nat → Nat) → Ptr → Ptr → Ptr × Ptr

/-- Embedding of `Elevation (block, fraction)`: a row index and the fractional offset
inside that row. -/
structure Elevation where
  block : Nat
  fraction : ℚ
deriving DecidableEq, Repr

/-! ## `upscale.cpp` -/

/-- Embedding of `VertEqUpscaler::gather (col, buf, data, stride, offset)`; the
result is the memory behind `buf` after the call. -/
def gather (ts : TopSurf) (col : Nat) (buf data : Ptr) (stride offset : Nat) : Ptr :=
  let fine_ndx := rlw_at ts ts.col_cells col
  forLoop (fun row b =>
      let block_ndx := fine_ndx row
      let pos := block_ndx * stride + offset
      assign b row (data pos))
    (rlw_size ts col) buf

/-- Embedding of `VertEqUpscaler::wgt_dpt (col, val, res)`; the loop state is the
running total `accum` and the memory behind `res`, and the result is that memory
after the call. -/
def wgt_dpt (ts : TopSurf) (col : Nat) (val res : Ptr) : Ptr :=
  let dz_col := rlw_at ts ts.dz col
  let H := ts.h_tot col
  (forLoop (fun row (st : ℚ × Ptr) =>
      let accum := st.1 + val row * dz_col row
      (accum, assign st.2 row (accum / H)))
    (rlw_size ts col) (0, res)).2

/-- Embedding of `VertEqUpscaler::num_rows (col)`. -/
def num_rows (ts : TopSurf) (col : Nat) : Nat :=
  rlw_size ts col

/-- Embedding of `VertEqUpscaler::bottom (col)`. -/
def bottom (ts : TopSurf) (col : Nat) : Elevation :=
  Elevation.mk (num_rows ts col) 0

/-- Modelled from the spec: `VertEqUpscaler::dpt_avg (col, val)`, whose body is not in
`upscale.cpp`. Spec section 4.1: "returns Σ(values[row] × thickness[row]) / H for the
column". -/
def dpt_avg (ts : TopSurf) (col : Nat) (val : Ptr) : ℚ :=
  (∑ row in Finset.range (rlw_size ts col), val row * rlw_at ts ts.dz col row) / ts.h_tot col

/-- First row below `n` whose profile value is at least `target`, if there is one
(helper of `find`). -/
def firstReach (profile : Ptr) (target : ℚ) : Nat → Option Nat
  | 0 => none
  | n + 1 =>
    match firstReach profile target n with
    | some r => some r
    | none => if target ≤ profile n then some n else none

/-- Modelled from the spec: `VertEqUpscaler::find (col, profile, target)`, whose body
is not in `upscale.cpp`. Spec section 4.1: the elevation (row, fractional offset) where
linear interpolation of the profile between row boundaries equals `target`, the offset
being in [0,1) (spec section 3). A target ≤ 0 resolves to the first row at offset 0. A
target equal to the profile value at a row boundary resolves to the row that starts at
that boundary, at offset 0, ties on flat segments going to the earliest qualifying row.
A target that no row reaches resolves to the fixed "fully filled" elevation, the
thickness boundary of the last row; with offsets in [0,1) this is the elevation past
all rows, `bottom (col)` of the source, which is also what the boundary rule gives for a
target equal to the last profile entry. -/
def find (ts : TopSurf) (col : Nat) (profile : Ptr) (target : ℚ) : Elevation :=
  if target ≤ 0 then Elevation.mk 0 0
  else
    match firstReach profile target (num_rows ts col) with
    | none => bottom ts col
    | some r =>
      if profile r = target then Elevation.mk (r + 1) 0
      else
        let below := if r = 0 then 0 else profile (r - 1)
        Elevation.mk r ((target - below) / (profile r - below))

/-! ## `props.cpp` -/

def TWO_DIMS : Nat := 2
def THREE_DIMS : Nat := 3
def PERM_MATRIX_2D : Nat := TWO_DIMS * TWO_DIMS
def PERM_MATRIX_3D : Nat := THREE_DIMS * THREE_DIMS
def KXX_OFS_3D : Nat := 0 * THREE_DIMS + 0
def KXY_OFS_3D : Nat := 0 * THREE_DIMS + 1
def KYY_OFS_3D : Nat := 1 * THREE_DIMS + 1
def KXX_OFS_2D : Nat := 0 * TWO_DIMS + 0
def KXY_OFS_2D : Nat := 0 * TWO_DIMS + 1
def KYX_OFS_2D : Nat := 1 * TWO_DIMS + 0
def KYY_OFS_2D : Nat := 1 * TWO_DIMS + 1
def GAS : Nat := 0
def WAT : Nat := 1

/-- Modelled from the spec: `RunLenData <double>` (from `runlen.hpp`, not among the
sources), the column-indexed variable-length container: `d col` is the memory of
column `col`, as returned by `d[col]`. -/
abbrev RunLenData := Nat → Ptr

/-- Data members of `VertEqPropsImpl` (the helper `up` is determined by `ts`). -/
structure VertEqPropsImpl where
  fp : IncompPropertiesInterface
  ts : TopSurf
  upscaled_poro : List ℚ
  upscaled_absperm : List ℚ
  res_gas_vol : RunLenData
  mob_mix_vol : RunLenData
  res_wat_vol : RunLenData
  res_gas_dpt : RunLenData
  mob_mix_dpt : RunLenData
  res_wat_dpt : RunLenData
  max_gas_sat : List ℚ
  max_gas_elev : List Elevation

/-- Embedding of `VertEqPropsImpl::res_elev (col, max_sat)`. -/
def res_elev (self : VertEqPropsImpl) (col : Nat) (max_sat : ℚ) : Elevation :=
  let max_vol := self.upscaled_poro.getD col 0 * max_sat
  let zeta_r := find self.ts col (self.res_wat_dpt col) max_vol
  zeta_r

/-- Embedding of `VertEqPropsImpl::check_res_sat (col, cur_sat)`. -/
def check_res_sat (self : VertEqPropsImpl) (col : Nat) (cur_sat : ℚ) : VertEqPropsImpl :=
  if cur_sat > self.max_gas_sat.getD col 0 then
    { self with
      max_gas_elev := self.max_gas_elev.set col (res_elev self col cur_sat)
      max_gas_sat := self.max_gas_sat.set col cur_sat }
  else self

/-- Embedding of `VertEqPropsImpl::upd_res_sat (snap)`. -/
def upd_res_sat (self : VertEqPropsImpl) (snap : Ptr) : VertEqPropsImpl :=
  let num_phases := self.fp.numPhases
  forLoop (fun col s =>
      let cur_sat := snap (col * num_phases + GAS)
      check_res_sat s col cur_sat)
    self.ts.number_of_cells self

/-- Loop state of the constructor: the object under construction and the six local
buffers `poro`, `kxx`, `kxy`, `kyy`, `sgr`, `l_swr`, which are handed on as raw
pointers (`&poro[0]`) and live across the iterations of the column loop. -/
structure CtorState where
  self : VertEqPropsImpl
  poro : Ptr
  kxx : Ptr
  kxy : Ptr
  kyy : Ptr
  sgr : Ptr
  l_swr : Ptr

/-- State of the constructor when the column loop is entered: the member initialiser
list, `upscaled_poro.resize (ts.number_of_cells)` and the zero-filled local buffers.
`upscaled_absperm` is default-constructed and the constructor has no resize for it, so
it is the empty vector. -/
def ctor_init (fineProps : IncompPropertiesInterface) (topSurf : TopSurf) : CtorState :=
  { self :=
      { fp := fineProps
        ts := topSurf
        upscaled_poro := List.replicate topSurf.number_of_cells 0
        upscaled_absperm := []
        res_gas_vol := fun _ _ => 0
        mob_mix_vol := fun _ _ => 0
        res_wat_vol := fun _ _ => 0
        res_gas_dpt := fun _ _ => 0
        mob_mix_dpt := fun _ _ => 0
        res_wat_dpt := fun _ _ => 0
        max_gas_sat := List.replicate topSurf.number_of_cells 0
        max_gas_elev := List.replicate topSurf.number_of_cells (Elevation.mk 0 0) }
    poro := fun _ => 0
    kxx := fun _ => 0
    kxy := fun _ => 0
    kyy := fun _ => 0
    sgr := fun _ => 0
    l_swr := fun _ => 0 }

/-- The three volume fractions of a column: the row loop of the constructor
(`res_gas_col[row]`, `mob_mix_col[row]`, `res_wat_col[row]`). -/
def vol_fractions (num_phases n : Nat) (poro sgr l_swr : Ptr) (init : Ptr × Ptr × Ptr) :
    Ptr × Ptr × Ptr :=
  forLoop (fun row (v : Ptr × Ptr × Ptr) =>
      let sgr_ := sgr (row * num_phases + GAS)
      let l_swr_ := l_swr (row * num_phases + GAS)
      (assign v.1 row (poro row * sgr_),
       assign v.2.1 row (poro row * (l_swr_ - sgr_)),
       assign v.2.2 row (poro row * l_swr_)))
    n init

/-- One iteration of the column loop of the constructor. -/
def ctor_col (st : CtorState) (col : Nat) : CtorState :=
  let fp := st.self.fp
  let ts := st.self.ts
  let num_phases := fp.numPhases
  let poro := gather ts col st.poro fp.porosity 1 0
  let upscaled_poro := st.self.upscaled_poro.set col (dpt_avg ts col poro)
  let kxx := gather ts col st.kxx fp.permeability PERM_MATRIX_3D KXX_OFS_3D
  let kxy := gather ts col st.kxy fp.permeability PERM_MATRIX_3D KXY_OFS_3D
  let kyy := gather ts col st.kyy fp.permeability PERM_MATRIX_3D KYY_OFS_3D
  let up_kxx := dpt_avg ts col kxx
  let up_kxy := dpt_avg ts col kxy
  let up_kyy := dpt_avg ts col kyy
  let absperm1 := st.self.upscaled_absperm.set (PERM_MATRIX_2D * col + KXX_OFS_2D) up_kxx
  let absperm2 := absperm1.set (PERM_MATRIX_2D * col + KXY_OFS_2D) up_kxy
  let absperm3 := absperm2.set (PERM_MATRIX_2D * col + KYX_OFS_2D) up_kxy
  let absperm4 := absperm3.set (PERM_MATRIX_2D * col + KYY_OFS_2D) up_kyy
  let sat := fp.satRange (rlw_size ts col) (rlw_at ts ts.col_cells col) st.sgr st.l_swr
  let sgr := sat.1
  let l_swr := sat.2
  let vols := vol_fractions num_phases (rlw_size ts col) poro sgr l_swr
    (st.self.res_gas_vol col, st.self.mob_mix_vol col, st.self.res_wat_vol col)
  let res_gas_col := vols.1
  let mob_mix_col := vols.2.1
  let res_wat_col := vols.2.2
  { self :=
      { st.self with
        upscaled_poro := upscaled_poro
        upscaled_absperm := absperm4
        res_gas_vol := Function.update st.self.res_gas_vol col res_gas_col
        mob_mix_vol := Function.update st.self.mob_mix_vol col mob_mix_col
        res_wat_vol := Function.update st.self.res_wat_vol col res_wat_col
        res_gas_dpt := Function.update st.self.res_gas_dpt col
          (wgt_dpt ts col res_gas_col (st.self.res_gas_dpt col))
        mob_mix_dpt := Function.update st.self.mob_mix_dpt col
          (wgt_dpt ts col mob_mix_col (st.self.mob_mix_dpt col))
        res_wat_dpt := Function.update st.self.res_wat_dpt col
          (wgt_dpt ts col res_gas_col (st.self.res_wat_dpt col)) }
    poro := poro
    kxx := kxx
    kxy := kxy
    kyy := kyy
    sgr := sgr
    l_swr := l_swr }

/-- Constructor state after the first `k` iterations of the column loop. -/
def ctor_upto (fineProps : IncompPropertiesInterface) (topSurf : TopSurf) (k : Nat) :
    CtorState :=
  forLoop (fun col st => ctor_col st col) k (ctor_init fineProps topSurf)

/-- Embedding of the constructor `VertEqPropsImpl (fineProps, topSurf)`. -/
def construct (fineProps : IncompPropertiesInterface) (topSurf : TopSurf) : VertEqPropsImpl :=
  (ctor_upto fineProps topSurf topSurf.number_of_cells).self

/-- Message of the exception built by `OPM_EXC` in the two stubbed queries. -/
def notImplementedMsg : String := "Not implemented yet"

/-- Embedding of `VertEqPropsImpl::relperm`: the outcome (normal return or exception)
together with the memory behind the output pointers `kr` and `dkrds` when control
leaves the function. The method is `const`, it has no access to modify the object. -/
def relperm (_self : VertEqPropsImpl) (_n : Nat) (_s : Ptr) (_cells : Nat → Nat)
    (kr dkrds : Ptr) : Except String Unit × Ptr × Ptr :=
  (Except.error notImplementedMsg, kr, dkrds)

/-- Embedding of `VertEqPropsImpl::capPress`, as for `relperm`, with the output
pointers `pc` and `dpcds`. -/
def capPress (_self : VertEqPropsImpl) (_n : Nat) (_s : Ptr) (_cells : Nat → Nat)
    (pc dpcds : Ptr) : Except String Unit × Ptr × Ptr :=
  (Except.error notImplementedMsg, pc, dpcds)

/-- Embedding of `VertEqPropsImpl::satRange (n, cells, smin, smax)`; the result is the
memory behind `smin` and `smax` after the call. -/
def satRange (self : VertEqPropsImpl) (n : Nat) (_cells : Nat → Nat) (smin smax : Ptr) :
    Ptr × Ptr :=
  let np := n * self.fp.numPhases
  (fill smin np 0, fill smax np 1)

/-! ## Derived notions used in the statements -/

/-- Result `(sgr, l_swr)` of the fine saturation-range query that the constructor
issues for column `col`: the call `fp.satRange (size (col), col_cells[col], &sgr[0],
&l_swr[0])` on the buffers as the earlier iterations left them. -/
def sat_query (fineProps : IncompPropertiesInterface) (topSurf : TopSurf) (col : Nat) :
    Ptr × Ptr :=
  fineProps.satRange (rlw_size topSurf col) (rlw_at topSurf topSurf.col_cells col)
    (ctor_upto fineProps topSurf col).sgr (ctor_upto fineProps topSurf col).l_swr

/-- A sequence of `upd_res_sat` calls, one per snapshot, in list order. -/
def run (self : VertEqPropsImpl) (snaps : List Ptr) : VertEqPropsImpl :=
  snaps.foldl upd_res_sat self

/-- Fine property source of the spec's worked case: two phases, porosity 0.2 in every
cell, residual-gas saturation 0.1 and complement of residual water 0.8 for every
requested entry. -/
def specFine : IncompPropertiesInterface :=
  { numPhases := 2
    porosity := fun _ => 1 / 5
    permeability := fun _ => 1
    satRange := fun n _ smin smax => (fill smin (n * 2) (1 / 10), fill smax (n * 2) (4 / 5)) }

/-- Topology of the spec's worked case: one column of two cells of thickness 1, H = 2. -/
def specTop : TopSurf :=
  { number_of_cells := 1
    col_cellpos := fun c => 2 * c
    col_cells := fun i => i
    dz := fun _ => 1
    h_tot := fun _ => 2
    max_vert_res := 2 }

/-- Fine property source with porosity 0.2 whose saturation-range query returns residual
gas saturation 0.9 and complement of residual water 0.1 for every requested entry (both
inside [0,1], the first above the second). -/
def crossFine : IncompPropertiesInterface :=
  { numPhases := 2
    porosity := fun _ => 1 / 5
    permeability := fun _ => 1
    satRange := fun n _ smin smax => (fill smin (n * 2) (9 / 10), fill smax (n * 2) (1 / 10)) }

/-- Cumulative value at the boundary where row `b` starts: 0 at the start of the first
row, otherwise the profile entry of the row before. -/
def boundaryVal (profile : Ptr) (b : Nat) : ℚ :=
  if b = 0 then 0 else profile (b - 1)

/-- Per-cell values 1 in row 0 and 0 in every later row. -/
def stepVal : Ptr :=
  fun i => if i = 0 then 1 else 0

/-- Snapshot that holds the saturation `v` in every entry. -/
def snapConst (v : ℚ) : Ptr :=
  fun _ => v

/-! ## Loops in closed form -/

theorem assign_apply (p : Ptr) (i j : Nat) (v : ℚ) :
    assign p i v j = if j = i then v else p j := rfl

/-- A loop that stores `f row` at `row` for every row below the bound. -/
theorem forLoop_assign (f : Nat → ℚ) (n : Nat) (p : Ptr) (r : Nat) :
    forLoop (fun row b => assign b row (f row)) n p r = if r < n then f r else p r := by
  induction n with
  | zero => simp [forLoop]
  | succ n ih =>
    simp only [forLoop, assign_apply, ih]
    by_cases h : r = n
    · subst h; simp
    · by_cases h2 : r < n
      · simp [h, h2, Nat.lt_succ_of_lt h2]
      · have h3 : ¬ r < n + 1 := by omega
        simp [h, h2, h3]

theorem fill_apply (p : Ptr) (n : Nat) (v : ℚ) (i : Nat) :
    fill p n v i = if i < n then v else p i := by
  unfold fill
  exact forLoop_assign (fun _ => v) n p i

theorem gather_apply (ts : TopSurf) (col : Nat) (buf data : Ptr) (stride offset r : Nat) :
    gather ts col buf data stride offset r =
      if r < rlw_size ts col then data (rlw_at ts ts.col_cells col r * stride + offset)
      else buf r := by
  unfold gather
  exact forLoop_assign (fun row => data (rlw_at ts ts.col_cells col row * stride + offset))
    (rlw_size ts col) buf r

theorem wgt_dpt_loop (val dz : Ptr) (H : ℚ) (res : Ptr) (n : Nat) :
    forLoop (fun row (st : ℚ × Ptr) =>
        let accum := st.1 + val row * dz row
        (accum, assign st.2 row (accum / H))) n (0, res) =
      (∑ i in Finset.range n, val i * dz i,
       fun r => if r < n then (∑ i in Finset.range (r + 1), val i * dz i) / H else res r) := by
  induction n with
  | zero => simp [forLoop]
  | succ n ih =>
    simp only [forLoop, ih]
    refine Prod.ext ?_ ?_
    · simp [Finset.sum_range_succ]
    · funext r
      simp only [assign_apply]
      by_cases h : r = n
      · subst h; simp [Finset.sum_range_succ]
      · by_cases h2 : r < n
        · simp [h, h2, Nat.lt_succ_of_lt h2]
        · have h3 : ¬ r < n + 1 := by omega
          simp [h, h2, h3]

/-- Closed form of `wgt_dpt`: row `r` of the column receives the running sum through
`r` divided by `H`; every other entry of `res` is left as it was. -/
theorem wgt_dpt_apply (ts : TopSurf) (col : Nat) (val res : Ptr) (r : Nat) :
    wgt_dpt ts col val res r =
      if r < rlw_size ts col then
        (∑ i in Finset.range (r + 1), val i * rlw_at ts ts.dz col i) / ts.h_tot col
      else res r := by
  unfold wgt_dpt
  simp only [wgt_dpt_loop]

theorem vol_fractions_eq (num_phases n : Nat) (poro sgr l_swr : Ptr) (init : Ptr × Ptr × Ptr) :
    vol_fractions num_phases n poro sgr l_swr init =
      (fun r => if r < n then poro r * sgr (r * num_phases + GAS) else init.1 r,
       fun r => if r < n then
          poro r * (l_swr (r * num_phases + GAS) - sgr (r * num_phases + GAS)) else init.2.1 r,
       fun r => if r < n then poro r * l_swr (r * num_phases + GAS) else init.2.2 r) := by
  unfold vol_fractions
  induction n with
  | zero => simp [forLoop]
  | succ n ih =>
    simp only [forLoop, ih]
    refine Prod.ext ?_ (Prod.ext ?_ ?_) <;>
    · funext r
      simp only [assign_apply]
      by_cases h : r = n
      · subst h; simp
      · by_cases h2 : r < n
        · simp [h, h2, Nat.lt_succ_of_lt h2]
        · have h3 : ¬ r < n + 1 := by omega
          simp [h, h2, h3]

/-! ## The column loop of the constructor -/

theorem ctor_upto_succ (fp : IncompPropertiesInterface) (ts : TopSurf) (k : Nat) :
    ctor_upto fp ts (k + 1) = ctor_col (ctor_upto fp ts k) k := rfl

theorem ctor_upto_fp_ts (fp : IncompPropertiesInterface) (ts : TopSurf) (k : Nat) :
    (ctor_upto fp ts k).self.fp = fp ∧ (ctor_upto fp ts k).self.ts = ts := by
  induction k with
  | zero => exact ⟨rfl, rfl⟩
  | succ k ih => exact ih

theorem construct_fp_ts (fp : IncompPropertiesInterface) (ts : TopSurf) :
    (construct fp ts).fp = fp ∧ (construct fp ts).ts = ts :=
  ctor_upto_fp_ts fp ts ts.number_of_cells

/-- Later iterations of the column loop leave the profiles of column `col` alone. -/
theorem ctor_upto_dpt_frame (fp : IncompPropertiesInterface) (ts : TopSurf) (col k : Nat)
    (h : col < k) :
    (ctor_upto fp ts k).self.res_gas_dpt col = (ctor_upto fp ts (col + 1)).self.res_gas_dpt col ∧
    (ctor_upto fp ts k).self.mob_mix_dpt col = (ctor_upto fp ts (col + 1)).self.mob_mix_dpt col ∧
    (ctor_upto fp ts k).self.res_wat_dpt col = (ctor_upto fp ts (col + 1)).self.res_wat_dpt col := by
  induction k with
  | zero => omega
  | succ k ih =>
    by_cases hk : col = k
    · subst hk; exact ⟨rfl, rfl, rfl⟩
    · have hlt : col < k := by omega
      obtain ⟨h1, h2, h3⟩ := ih hlt
      rw [ctor_upto_succ]
      refine ⟨?_, ?_, ?_⟩
      · rw [← h1]; simp [ctor_col, Function.update_noteq hk]
      · rw [← h2]; simp [ctor_col, Function.update_noteq hk]
      · rw [← h3]; simp [ctor_col, Function.update_noteq hk]

/-- The residual-gas profile written in iteration `col`, in closed form. -/
theorem ctor_col_res_gas_dpt (fp : IncompPropertiesInterface) (ts : TopSurf) (col r : Nat)
    (hr : r < rlw_size ts col) :
    (ctor_upto fp ts (col + 1)).self.res_gas_dpt col r =
      (∑ i in Finset.range (r + 1),
          fp.porosity (rlw_at ts ts.col_cells col i) *
            (sat_query fp ts col).1 (i * fp.numPhases + GAS) * rlw_at ts ts.dz col i) /
        ts.h_tot col := by
  obtain ⟨hfp, hts⟩ := ctor_upto_fp_ts fp ts col
  rw [ctor_upto_succ]
  simp only [ctor_col, Function.update_same, hfp, hts, wgt_dpt_apply, hr, if_true,
    vol_fractions_eq]
  congr 1
  apply Finset.sum_congr rfl
  intro i hi
  have hi2 : i < rlw_size ts col := by
    have := Finset.mem_range.mp hi
    omega
  simp [hi2, gather_apply, sat_query]

/-- The mobile-fraction profile written in iteration `col`, in closed form. -/
theorem ctor_col_mob_mix_dpt (fp : IncompPropertiesInterface) (ts : TopSurf) (col r : Nat)
    (hr : r < rlw_size ts col) :
    (ctor_upto fp ts (col + 1)).self.mob_mix_dpt col r =
      (∑ i in Finset.range (r + 1),
          fp.porosity (rlw_at ts ts.col_cells col i) *
            ((sat_query fp ts col).2 (i * fp.numPhases + GAS) -
              (sat_query fp ts col).1 (i * fp.numPhases + GAS)) * rlw_at ts ts.dz col i) /
        ts.h_tot col := by
  obtain ⟨hfp, hts⟩ := ctor_upto_fp_ts fp ts col
  rw [ctor_upto_succ]
  simp only [ctor_col, Function.update_same, hfp, hts, wgt_dpt_apply, hr, if_true,
    vol_fractions_eq]
  congr 1
  apply Finset.sum_congr rfl
  intro i hi
  have hi2 : i < rlw_size ts col := by
    have := Finset.mem_range.mp hi
    omega
  simp [hi2, gather_apply, sat_query]

theorem construct_mob_mix_dpt (fp : IncompPropertiesInterface) (ts : TopSurf) (col r : Nat)
    (hcol : col < ts.number_of_cells) (hr : r < rlw_size ts col) :
    (construct fp ts).mob_mix_dpt col r =
      (∑ i in Finset.range (r + 1),
          fp.porosity (rlw_at ts ts.col_cells col i) *
            ((sat_query fp ts col).2 (i * fp.numPhases + GAS) -
              (sat_query fp ts col).1 (i * fp.numPhases + GAS)) * rlw_at ts ts.dz col i) /
        ts.h_tot col := by
  unfold construct
  rw [(ctor_upto_dpt_frame fp ts col ts.number_of_cells hcol).2.1]
  exact ctor_col_mob_mix_dpt fp ts col r hr

/-- The profile stored as `res_wat_dpt` in iteration `col` is computed from the same
volume fraction as `res_gas_dpt` (the third `wgt_dpt` call reads `res_gas_col`). -/
theorem ctor_col_res_wat_dpt (fp : IncompPropertiesInterface) (ts : TopSurf) (col r : Nat)
    (hr : r < rlw_size ts col) :
    (ctor_upto fp ts (col + 1)).self.res_wat_dpt col r =
      (ctor_upto fp ts (col + 1)).self.res_gas_dpt col r := by
  rw [ctor_upto_succ]
  simp only [ctor_col, Function.update_same, wgt_dpt_apply]
  obtain ⟨_, hts⟩ := ctor_upto_fp_ts fp ts col
  simp [hts, hr]

theorem construct_res_gas_dpt (fp : IncompPropertiesInterface) (ts : TopSurf) (col r : Nat)
    (hcol : col < ts.number_of_cells) (hr : r < rlw_size ts col) :
    (construct fp ts).res_gas_dpt col r =
      (∑ i in Finset.range (r + 1),
          fp.porosity (rlw_at ts ts.col_cells col i) *
            (sat_query fp ts col).1 (i * fp.numPhases + GAS) * rlw_at ts ts.dz col i) /
        ts.h_tot col := by
  unfold construct
  rw [(ctor_upto_dpt_frame fp ts col ts.number_of_cells hcol).1]
  exact ctor_col_res_gas_dpt fp ts col r hr

/-- After construction `res_wat_dpt` repeats `res_gas_dpt` on every row of every column. -/
theorem construct_res_wat_dpt (fp : IncompPropertiesInterface) (ts : TopSurf) (col r : Nat)
    (hcol : col < ts.number_of_cells) (hr : r < rlw_size ts col) :
    (construct fp ts).res_wat_dpt col r = (construct fp ts).res_gas_dpt col r := by
  unfold construct
  rw [(ctor_upto_dpt_frame fp ts col ts.number_of_cells hcol).1,
    (ctor_upto_dpt_frame fp ts col ts.number_of_cells hcol).2.2]
  exact ctor_col_res_wat_dpt fp ts col r hr

theorem ctor_upto_poro_length (fp : IncompPropertiesInterface) (ts : TopSurf) (k : Nat) :
    (ctor_upto fp ts k).self.upscaled_poro.length = ts.number_of_cells := by
  induction k with
  | zero => simp [ctor_upto, forLoop, ctor_init]
  | succ k ih =>
    rw [ctor_upto_succ]
    simpa [ctor_col] using ih

theorem ctor_upto_poro_frame (fp : IncompPropertiesInterface) (ts : TopSurf) (col k : Nat)
    (h : col < k) :
    (ctor_upto fp ts k).self.upscaled_poro[col]? =
      (ctor_upto fp ts (col + 1)).self.upscaled_poro[col]? := by
  induction k with
  | zero => omega
  | succ k ih =>
    by_cases hk : col = k
    · subst hk; rfl
    · have hlt : col < k := by omega
      rw [← ih hlt, ctor_upto_succ]
      have hne : k ≠ col := fun e => hk e.symm
      simp [ctor_col, List.getElem?_set_ne hne]

/-- The upscaled porosity stored for a column is the depth-weighted average of the fine
porosities of its cells. -/
theorem construct_upscaled_poro (fp : IncompPropertiesInterface) (ts : TopSurf) (col : Nat)
    (hcol : col < ts.number_of_cells) :
    (construct fp ts).upscaled_poro[col]? =
      some ((∑ row in Finset.range (rlw_size ts col),
          fp.porosity (rlw_at ts ts.col_cells col row) * rlw_at ts ts.dz col row) /
        ts.h_tot col) := by
  unfold construct
  rw [ctor_upto_poro_frame fp ts col ts.number_of_cells hcol, ctor_upto_succ]
  obtain ⟨hfp, hts⟩ := ctor_upto_fp_ts fp ts col
  have hlen : col < (ctor_upto fp ts col).self.upscaled_poro.length := by
    rw [ctor_upto_poro_length]; exact hcol
  simp only [ctor_col, hfp, hts, List.getElem?_set_self hlen, dpt_avg]
  congr 2
  apply Finset.sum_congr rfl
  intro i hi
  have hi2 : i < rlw_size ts col := Finset.mem_range.mp hi
  simp [hi2, gather_apply]

/-- The storage of `upscaled_absperm` is empty at every point of the column loop: it
starts empty and a store never changes the size of a vector. -/
theorem ctor_upto_absperm (fp : IncompPropertiesInterface) (ts : TopSurf) (k : Nat) :
    (ctor_upto fp ts k).self.upscaled_absperm = [] := by
  induction k with
  | zero => rfl
  | succ k ih =>
    rw [ctor_upto_succ]
    simp [ctor_col, ih]

/-! ## The trapping state -/

/-- Members that `check_res_sat` never writes, and the sizes of the two it writes. -/
theorem check_res_sat_static (s : VertEqPropsImpl) (col : Nat) (x : ℚ) :
    (check_res_sat s col x).fp = s.fp ∧ (check_res_sat s col x).ts = s.ts ∧
    (check_res_sat s col x).upscaled_poro = s.upscaled_poro ∧
    (check_res_sat s col x).res_wat_dpt = s.res_wat_dpt ∧
    (check_res_sat s col x).max_gas_sat.length = s.max_gas_sat.length ∧
    (check_res_sat s col x).max_gas_elev.length = s.max_gas_elev.length := by
  unfold check_res_sat
  split <;> simp

/-- Frame of `check_res_sat`: the entries of any other column are untouched. -/
theorem check_res_sat_other (s : VertEqPropsImpl) (j col : Nat) (x : ℚ) (h : j ≠ col) :
    (check_res_sat s j x).max_gas_sat[col]? = s.max_gas_sat[col]? ∧
    (check_res_sat s j x).max_gas_elev[col]? = s.max_gas_elev[col]? := by
  unfold check_res_sat
  split
  · simp [List.getElem?_set_ne h]
  · simp

/-- Effect of `check_res_sat` on its own column, for an index inside both vectors. -/
theorem check_res_sat_same (s : VertEqPropsImpl) (col : Nat) (x : ℚ)
    (h1 : col < s.max_gas_sat.length) (h2 : col < s.max_gas_elev.length) :
    (check_res_sat s col x).max_gas_sat[col]? =
      some (if x > s.max_gas_sat.getD col 0 then x else s.max_gas_sat.getD col 0) ∧
    (check_res_sat s col x).max_gas_elev[col]? =
      if x > s.max_gas_sat.getD col 0 then some (res_elev s col x) else s.max_gas_elev[col]? := by
  unfold check_res_sat
  split
  · simp [List.getElem?_set_self h1, List.getElem?_set_self h2]
  · simp [List.getD_eq_getElem?_getD, List.getElem?_eq_getElem h1]

/-- The column loop of `upd_res_sat` after `k` iterations. -/
theorem upd_loop (s : VertEqPropsImpl) (snap : Ptr) (np k : Nat) :
    let t := forLoop (fun col u => check_res_sat u col (snap (col * np + GAS))) k s
    (t.fp = s.fp ∧ t.ts = s.ts ∧ t.upscaled_poro = s.upscaled_poro ∧
      t.res_wat_dpt = s.res_wat_dpt ∧ t.max_gas_sat.length = s.max_gas_sat.length ∧
      t.max_gas_elev.length = s.max_gas_elev.length) ∧
    (∀ col, k ≤ col →
      t.max_gas_sat[col]? = s.max_gas_sat[col]? ∧ t.max_gas_elev[col]? = s.max_gas_elev[col]?) ∧
    (∀ col, col < k → col < s.max_gas_sat.length → col < s.max_gas_elev.length →
      t.max_gas_sat[col]? =
        some (if snap (col * np + GAS) > s.max_gas_sat.getD col 0
          then snap (col * np + GAS) else s.max_gas_sat.getD col 0) ∧
      t.max_gas_elev[col]? =
        if snap (col * np + GAS) > s.max_gas_sat.getD col 0
          then some (res_elev s col (snap (col * np + GAS))) else s.max_gas_elev[col]?) := by
  induction k with
  | zero =>
    refine ⟨⟨rfl, rfl, rfl, rfl, rfl, rfl⟩, fun col _ => ⟨rfl, rfl⟩, ?_⟩
    intro col h
    omega
  | succ k ih =>
    obtain ⟨⟨e1, e2, e3, e4, e5, e6⟩, hge, hlt⟩ := ih
    simp only [forLoop]
    generalize forLoop (fun col u => check_res_sat u col (snap (col * np + GAS))) k s = t
      at e1 e2 e3 e4 e5 e6 hge hlt
    obtain ⟨c1, c2, c3, c4, c5, c6⟩ := check_res_sat_static t k (snap (k * np + GAS))
    refine ⟨⟨c1.trans e1, c2.trans e2, c3.trans e3, c4.trans e4, c5.trans e5, c6.trans e6⟩,
      ?_, ?_⟩
    · intro col hcol
      have hne : k ≠ col := by omega
      obtain ⟨o1, o2⟩ := check_res_sat_other t k col (snap (k * np + GAS)) hne
      obtain ⟨g1, g2⟩ := hge col (by omega)
      exact ⟨o1.trans g1, o2.trans g2⟩
    · intro col hcol hl1 hl2
      by_cases hk : col = k
      · subst hk
        obtain ⟨g1, g2⟩ := hge col (le_refl col)
        have hd : t.max_gas_sat.getD col 0 = s.max_gas_sat.getD col 0 := by
          simp [List.getD_eq_getElem?_getD, g1]
        have hre : ∀ x, res_elev t col x = res_elev s col x := by
          intro x
          simp [res_elev, e2, e3, e4]
        obtain ⟨m1, m2⟩ := check_res_sat_same t col (snap (col * np + GAS))
          (by rw [e5]; exact hl1) (by rw [e6]; exact hl2)
        rw [m1, m2, hd, hre, g2]
        exact ⟨rfl, rfl⟩
      · have hne : k ≠ col := fun e => hk e.symm
        obtain ⟨o1, o2⟩ := check_res_sat_other t k col (snap (k * np + GAS)) hne
        obtain ⟨g1, g2⟩ := hlt col (by omega) hl1 hl2
        exact ⟨o1.trans g1, o2.trans g2⟩

/-- Members that `upd_res_sat` never writes, and the sizes of the two it writes. -/
theorem upd_res_sat_static (s : VertEqPropsImpl) (snap : Ptr) :
    (upd_res_sat s snap).fp = s.fp ∧ (upd_res_sat s snap).ts = s.ts ∧
    (upd_res_sat s snap).upscaled_poro = s.upscaled_poro ∧
    (upd_res_sat s snap).res_wat_dpt = s.res_wat_dpt ∧
    (upd_res_sat s snap).max_gas_sat.length = s.max_gas_sat.length ∧
    (upd_res_sat s snap).max_gas_elev.length = s.max_gas_elev.length :=
  (upd_loop s snap s.fp.numPhases s.ts.number_of_cells).1

/-- Effect of `upd_res_sat` on one column of a store whose two trapping vectors have
one entry per column. -/
theorem upd_res_sat_col (s : VertEqPropsImpl) (snap : Ptr) (col : Nat)
    (hcol : col < s.ts.number_of_cells)
    (h1 : s.max_gas_sat.length = s.ts.number_of_cells)
    (h2 : s.max_gas_elev.length = s.ts.number_of_cells) :
    (upd_res_sat s snap).max_gas_sat[col]? =
      some (if snap (col * s.fp.numPhases + GAS) > s.max_gas_sat.getD col 0
        then snap (col * s.fp.numPhases + GAS) else s.max_gas_sat.getD col 0) ∧
    (upd_res_sat s snap).max_gas_elev[col]? =
      if snap (col * s.fp.numPhases + GAS) > s.max_gas_sat.getD col 0
        then some (res_elev s col (snap (col * s.fp.numPhases + GAS)))
        else s.max_gas_elev[col]? :=
  (upd_loop s snap s.fp.numPhases s.ts.number_of_cells).2.2 col hcol
    (by rw [h1]; exact hcol) (by rw [h2]; exact hcol)

theorem res_elev_upd_res_sat (s : VertEqPropsImpl) (snap : Ptr) (col : Nat) (x : ℚ) :
    res_elev (upd_res_sat s snap) col x = res_elev s col x := by
  obtain ⟨_, e2, e3, e4, _, _⟩ := upd_res_sat_static s snap
  simp [res_elev, e2, e3, e4]

/-- The constructor's column loop never writes the trapping state. -/
theorem ctor_upto_trap (fp : IncompPropertiesInterface) (ts : TopSurf) (k : Nat) :
    (ctor_upto fp ts k).self.max_gas_sat = List.replicate ts.number_of_cells 0 ∧
    (ctor_upto fp ts k).self.max_gas_elev =
      List.replicate ts.number_of_cells (Elevation.mk 0 0) := by
  induction k with
  | zero => exact ⟨rfl, rfl⟩
  | succ k ih => exact ih

theorem construct_trap (fp : IncompPropertiesInterface) (ts : TopSurf) :
    (construct fp ts).max_gas_sat = List.replicate ts.number_of_cells 0 ∧
    (construct fp ts).max_gas_elev = List.replicate ts.number_of_cells (Elevation.mk 0 0) :=
  ctor_upto_trap fp ts ts.number_of_cells

/-- One `upd_res_sat` call on a store that belongs to `fp` and `ts` and whose trapping
vectors have one entry per column: the store still belongs to `fp` and `ts`, the sizes
are kept, and column `col` is updated by the ratchet rule. -/
theorem upd_res_sat_step (fp : IncompPropertiesInterface) (ts : TopSurf) (s : VertEqPropsImpl)
    (snap : Ptr) (hfp : s.fp = fp) (hts : s.ts = ts)
    (h1 : s.max_gas_sat.length = ts.number_of_cells)
    (h2 : s.max_gas_elev.length = ts.number_of_cells) :
    ((upd_res_sat s snap).fp = fp ∧ (upd_res_sat s snap).ts = ts ∧
      (upd_res_sat s snap).max_gas_sat.length = ts.number_of_cells ∧
      (upd_res_sat s snap).max_gas_elev.length = ts.number_of_cells) ∧
    (∀ col, col < ts.number_of_cells →
      (upd_res_sat s snap).max_gas_sat[col]? =
        some (if snap (col * fp.numPhases + GAS) > s.max_gas_sat.getD col 0
          then snap (col * fp.numPhases + GAS) else s.max_gas_sat.getD col 0) ∧
      (upd_res_sat s snap).max_gas_elev[col]? =
        if snap (col * fp.numPhases + GAS) > s.max_gas_sat.getD col 0
          then some (res_elev s col (snap (col * fp.numPhases + GAS)))
          else s.max_gas_elev[col]?) := by
  obtain ⟨e1, e2, _, _, e5, e6⟩ := upd_res_sat_static s snap
  subst hfp hts
  exact ⟨⟨e1, e2, e5.trans h1, e6.trans h2⟩, fun col hcol => upd_res_sat_col s snap col hcol h1 h2⟩

/-- Every store reached from construction by `upd_res_sat` calls belongs to the same
`fp` and `ts`, keeps one trapping entry per column, and holds no negative maximum. -/
theorem run_reachable (fp : IncompPropertiesInterface) (ts : TopSurf) (snaps : List Ptr) :
    ∀ s : VertEqPropsImpl, s.fp = fp → s.ts = ts →
      s.max_gas_sat.length = ts.number_of_cells → s.max_gas_elev.length = ts.number_of_cells →
      (∀ col, col < ts.number_of_cells → 0 ≤ s.max_gas_sat.getD col 0) →
      (run s snaps).fp = fp ∧ (run s snaps).ts = ts ∧
      (run s snaps).max_gas_sat.length = ts.number_of_cells ∧
      (run s snaps).max_gas_elev.length = ts.number_of_cells ∧
      (∀ col, col < ts.number_of_cells → 0 ≤ (run s snaps).max_gas_sat.getD col 0) := by
  induction snaps with
  | nil =>
    intro s hfp hts h1 h2 h0
    exact ⟨hfp, hts, h1, h2, h0⟩
  | cons snap rest ih =>
    intro s hfp hts h1 h2 h0
    obtain ⟨⟨f1, f2, f3, f4⟩, hc⟩ := upd_res_sat_step fp ts s snap hfp hts h1 h2
    refine ih (upd_res_sat s snap) f1 f2 f3 f4 ?_
    intro col hcol
    have hm := (hc col hcol).1
    have h0c := h0 col hcol
    rw [List.getD_eq_getElem?_getD, hm]
    simp only [Option.getD_some]
    split
    · exact le_of_lt (lt_of_le_of_lt h0c (by assumption))
    · exact h0c

theorem construct_reachable (fp : IncompPropertiesInterface) (ts : TopSurf) :
    (construct fp ts).fp = fp ∧ (construct fp ts).ts = ts ∧
    (construct fp ts).max_gas_sat.length = ts.number_of_cells ∧
    (construct fp ts).max_gas_elev.length = ts.number_of_cells ∧
    (∀ col, col < ts.number_of_cells → (construct fp ts).max_gas_sat.getD col 0 = 0) := by
  obtain ⟨t1, t2⟩ := construct_trap fp ts
  refine ⟨(construct_fp_ts fp ts).1, (construct_fp_ts fp ts).2, ?_, ?_, ?_⟩
  · simp [t1]
  · simp [t2]
  · intro col hcol
    simp [t1, List.getD_eq_getElem?_getD, List.getElem?_replicate, hcol]

/-! ## Sums of non-negative terms -/

/-- Adding a non-negative term does not lower a running sum divided by a positive `H`. -/
theorem running_sum_div_mono (f : Nat → ℚ) (H : ℚ) (r : Nat) (hH : 0 < H) (hf : 0 ≤ f (r + 1)) :
    (∑ i in Finset.range (r + 1), f i) / H ≤ (∑ i in Finset.range (r + 1 + 1), f i) / H := by
  rw [Finset.sum_range_succ f (r + 1)]
  apply div_le_div_of_nonneg_right _ (le_of_lt hH)
  linarith

/-- A running sum of non-negative terms divided by a positive `H` is non-negative. -/
theorem running_sum_div_nonneg (f : Nat → ℚ) (H : ℚ) (n : Nat) (hH : 0 < H)
    (hf : ∀ i, i < n → 0 ≤ f i) :
    0 ≤ (∑ i in Finset.range n, f i) / H := by
  apply div_nonneg _ (le_of_lt hH)
  apply Finset.sum_nonneg
  intro i hi
  exact hf i (Finset.mem_range.mp hi)

/-! ## The stored elevation as a function of the stored maximum -/

/-- One `upd_res_sat` call on a store in which every column's elevation is determined
by its maximum (the initial elevation at maximum 0, `res_elev` of the maximum
otherwise, `res_elev` being that of a fixed store `c0`): the new maximum of a column is
the larger of the old one and the snapshot entry, and the elevation is still
determined by it. -/
theorem upd_trap_step (c0 : VertEqPropsImpl) (fp : IncompPropertiesInterface) (ts : TopSurf)
    (s : VertEqPropsImpl) (snap : Ptr) (hfp : s.fp = fp) (hts : s.ts = ts)
    (h1 : s.max_gas_sat.length = ts.number_of_cells)
    (h2 : s.max_gas_elev.length = ts.number_of_cells)
    (hre : ∀ col x, res_elev s col x = res_elev c0 col x)
    (hinv : ∀ col, col < ts.number_of_cells →
      0 ≤ s.max_gas_sat.getD col 0 ∧
      s.max_gas_elev[col]? =
        some (if s.max_gas_sat.getD col 0 = 0 then Elevation.mk 0 0
          else res_elev c0 col (s.max_gas_sat.getD col 0))) :
    (∀ col x, res_elev (upd_res_sat s snap) col x = res_elev c0 col x) ∧
    (∀ col, col < ts.number_of_cells →
      (upd_res_sat s snap).max_gas_sat.getD col 0 =
        max (s.max_gas_sat.getD col 0) (snap (col * fp.numPhases + GAS)) ∧
      0 ≤ (upd_res_sat s snap).max_gas_sat.getD col 0 ∧
      (upd_res_sat s snap).max_gas_elev[col]? =
        some (if (upd_res_sat s snap).max_gas_sat.getD col 0 = 0 then Elevation.mk 0 0
          else res_elev c0 col ((upd_res_sat s snap).max_gas_sat.getD col 0))) := by
  obtain ⟨_, hc⟩ := upd_res_sat_step fp ts s snap hfp hts h1 h2
  constructor
  · intro col x
    rw [res_elev_upd_res_sat, hre]
  · intro col hcol
    obtain ⟨m1, e1⟩ := hc col hcol
    obtain ⟨h0, he⟩ := hinv col hcol
    have hd : (upd_res_sat s snap).max_gas_sat.getD col 0 =
        (if snap (col * fp.numPhases + GAS) > s.max_gas_sat.getD col 0
          then snap (col * fp.numPhases + GAS) else s.max_gas_sat.getD col 0) := by
      rw [List.getD_eq_getElem?_getD, m1]; rfl
    by_cases hx : snap (col * fp.numPhases + GAS) > s.max_gas_sat.getD col 0
    · rw [if_pos hx] at hd e1
      have hpos : 0 < snap (col * fp.numPhases + GAS) := lt_of_le_of_lt h0 hx
      refine ⟨?_, ?_, ?_⟩
      · rw [hd, max_eq_right (le_of_lt hx)]
      · rw [hd]; exact le_of_lt hpos
      · rw [e1, hd, if_neg (ne_of_gt hpos), hre]
    · rw [if_neg hx] at hd e1
      refine ⟨?_, ?_, ?_⟩
      · rw [hd, max_eq_left (not_lt.mp hx)]
      · rw [hd]; exact h0
      · rw [e1, hd, he]

/-- Every store reached from a store with the invariant of `upd_trap_step` keeps it, and
the stored maximum of a column is the largest of the starting maximum and the snapshot
entries of the column. -/
theorem run_trap (c0 : VertEqPropsImpl) (fp : IncompPropertiesInterface) (ts : TopSurf)
    (snaps : List Ptr) :
    ∀ s : VertEqPropsImpl, s.fp = fp → s.ts = ts →
      s.max_gas_sat.length = ts.number_of_cells → s.max_gas_elev.length = ts.number_of_cells →
      (∀ col x, res_elev s col x = res_elev c0 col x) →
      (∀ col, col < ts.number_of_cells →
        0 ≤ s.max_gas_sat.getD col 0 ∧
        s.max_gas_elev[col]? =
          some (if s.max_gas_sat.getD col 0 = 0 then Elevation.mk 0 0
            else res_elev c0 col (s.max_gas_sat.getD col 0))) →
      ((run s snaps).fp = fp ∧ (run s snaps).ts = ts ∧
        (run s snaps).max_gas_sat.length = ts.number_of_cells ∧
        (run s snaps).max_gas_elev.length = ts.number_of_cells) ∧
      (∀ col x, res_elev (run s snaps) col x = res_elev c0 col x) ∧
      (∀ col, col < ts.number_of_cells →
        (run s snaps).max_gas_sat.getD col 0 =
          snaps.foldl (fun m sn => max m (sn (col * fp.numPhases + GAS)))
            (s.max_gas_sat.getD col 0) ∧
        0 ≤ (run s snaps).max_gas_sat.getD col 0 ∧
        (run s snaps).max_gas_elev[col]? =
          some (if (run s snaps).max_gas_sat.getD col 0 = 0 then Elevation.mk 0 0
            else res_elev c0 col ((run s snaps).max_gas_sat.getD col 0))) := by
  induction snaps with
  | nil =>
    intro s hfp hts h1 h2 hre hinv
    exact ⟨⟨hfp, hts, h1, h2⟩, hre, fun col hcol => ⟨rfl, (hinv col hcol).1, (hinv col hcol).2⟩⟩
  | cons snap rest ih =>
    intro s hfp hts h1 h2 hre hinv
    obtain ⟨⟨f1, f2, f3, f4⟩, _⟩ := upd_res_sat_step fp ts s snap hfp hts h1 h2
    obtain ⟨hre2, hstep⟩ := upd_trap_step c0 fp ts s snap hfp hts h1 h2 hre hinv
    obtain ⟨hst, hre3, hcols⟩ := ih (upd_res_sat s snap) f1 f2 f3 f4 hre2
      (fun col hcol => ⟨(hstep col hcol).2.1, (hstep col hcol).2.2⟩)
    refine ⟨hst, hre3, ?_⟩
    intro col hcol
    obtain ⟨g1, g2, g3⟩ := hcols col hcol
    refine ⟨?_, g2, g3⟩
    rw [show run s (snap :: rest) = run (upd_res_sat s snap) rest from rfl, g1,
      (hstep col hcol).1]
    rfl

/-- The invariant of `upd_trap_step` holds for a freshly constructed store. -/
theorem construct_trap_inv (fp : IncompPropertiesInterface) (ts : TopSurf) :
    ∀ col, col < ts.number_of_cells →
      0 ≤ (construct fp ts).max_gas_sat.getD col 0 ∧
      (construct fp ts).max_gas_elev[col]? =
        some (if (construct fp ts).max_gas_sat.getD col 0 = 0 then Elevation.mk 0 0
          else res_elev (construct fp ts) col ((construct fp ts).max_gas_sat.getD col 0)) := by
  intro col hcol
  obtain ⟨_, _, _, _, r5⟩ := construct_reachable fp ts
  rw [r5 col hcol, (construct_trap fp ts).2, List.getElem?_replicate, if_pos hcol, if_pos rfl]
  exact ⟨le_refl 0, rfl⟩

/-- Everything `run_trap` gives, for the stores reached from construction. -/
theorem run_construct_trap (fp : IncompPropertiesInterface) (ts : TopSurf) (snaps : List Ptr) :
    ((run (construct fp ts) snaps).fp = fp ∧ (run (construct fp ts) snaps).ts = ts ∧
      (run (construct fp ts) snaps).max_gas_sat.length = ts.number_of_cells ∧
      (run (construct fp ts) snaps).max_gas_elev.length = ts.number_of_cells) ∧
    (∀ col x, res_elev (run (construct fp ts) snaps) col x = res_elev (construct fp ts) col x) ∧
    (∀ col, col < ts.number_of_cells →
      (run (construct fp ts) snaps).max_gas_sat.getD col 0 =
        snaps.foldl (fun m sn => max m (sn (col * fp.numPhases + GAS))) 0 ∧
      0 ≤ (run (construct fp ts) snaps).max_gas_sat.getD col 0 ∧
      (run (construct fp ts) snaps).max_gas_elev[col]? =
        some (if (run (construct fp ts) snaps).max_gas_sat.getD col 0 = 0 then Elevation.mk 0 0
          else res_elev (construct fp ts) col
            ((run (construct fp ts) snaps).max_gas_sat.getD col 0))) := by
  obtain ⟨r1, r2, r3, r4, r5⟩ := construct_reachable fp ts
  obtain ⟨hst, hre, hcols⟩ := run_trap (construct fp ts) fp ts snaps (construct fp ts) r1 r2 r3 r4
    (fun _ _ => rfl) (construct_trap_inv fp ts)
  refine ⟨hst, hre, ?_⟩
  intro col hcol
  obtain ⟨g1, g2, g3⟩ := hcols col hcol
  rw [r5 col hcol] at g1
  exact ⟨g1, g2, g3⟩

/-- Two stores reached from the same construction whose stored maxima agree in every
column have the same two trapping vectors. -/
theorem run_trap_ext (fp : IncompPropertiesInterface) (ts : TopSurf) (xs ys : List Ptr)
    (h : ∀ col, col < ts.number_of_cells →
      (run (construct fp ts) xs).max_gas_sat.getD col 0 =
        (run (construct fp ts) ys).max_gas_sat.getD col 0) :
    (run (construct fp ts) xs).max_gas_sat = (run (construct fp ts) ys).max_gas_sat ∧
    (run (construct fp ts) xs).max_gas_elev = (run (construct fp ts) ys).max_gas_elev := by
  obtain ⟨⟨_, _, x3, x4⟩, _, hx⟩ := run_construct_trap fp ts xs
  obtain ⟨⟨_, _, y3, y4⟩, _, hy⟩ := run_construct_trap fp ts ys
  constructor
  · apply List.ext_getElem?
    intro col
    by_cases hcol : col < ts.number_of_cells
    · have hxl : col < (run (construct fp ts) xs).max_gas_sat.length := by rw [x3]; exact hcol
      have hyl : col < (run (construct fp ts) ys).max_gas_sat.length := by rw [y3]; exact hcol
      have e := h col hcol
      rw [List.getD_eq_getElem?_getD, List.getD_eq_getElem?_getD,
        List.getElem?_eq_getElem hxl, List.getElem?_eq_getElem hyl] at e
      rw [List.getElem?_eq_getElem hxl, List.getElem?_eq_getElem hyl]
      exact congrArg some e
    · rw [List.getElem?_eq_none (by rw [x3]; omega), List.getElem?_eq_none (by rw [y3]; omega)]
  · apply List.ext_getElem?
    intro col
    by_cases hcol : col < ts.number_of_cells
    · rw [(hx col hcol).2.2, (hy col hcol).2.2, h col hcol]
    · rw [List.getElem?_eq_none (by rw [x4]; omega), List.getElem?_eq_none (by rw [y4]; omega)]

/-! ## The inverse lookup -/

/-- When no row below `n` is reported, every row below `n` stays under the target. -/
theorem firstReach_none (p : Ptr) (t : ℚ) (n : Nat) (h : firstReach p t n = none) :
    ∀ i, i < n → p i < t := by
  induction n with
  | zero => intro i hi; omega
  | succ n ih =>
    intro i hi
    simp only [firstReach] at h
    cases hprev : firstReach p t n with
    | some q => rw [hprev] at h; simp at h
    | none =>
      rw [hprev] at h
      by_cases hc : t ≤ p n
      · simp [hc] at h
      · by_cases hin : i = n
        · subst hin; exact not_le.mp hc
        · exact ih hprev i (by omega)

/-- The reported row is below `n`, reaches the target, and no earlier row does. -/
theorem firstReach_some (p : Ptr) (t : ℚ) (n r : Nat) (h : firstReach p t n = some r) :
    r < n ∧ t ≤ p r ∧ ∀ j, j < r → p j < t := by
  induction n generalizing r with
  | zero => simp [firstReach] at h
  | succ n ih =>
    simp only [firstReach] at h
    cases hprev : firstReach p t n with
    | some q =>
      rw [hprev] at h
      have hq : q = r := Option.some.inj h
      subst hq
      obtain ⟨h1, h2, h3⟩ := ih q hprev
      exact ⟨Nat.lt_succ_of_lt h1, h2, h3⟩
    | none =>
      rw [hprev] at h
      by_cases hc : t ≤ p n
      · simp only [hc, if_true] at h
        have hn : n = r := Option.some.inj h
        subst hn
        exact ⟨Nat.lt_succ_self _, hc, firstReach_none p t n hprev⟩
      · simp [hc] at h

/-- The offset returned by `find` is in [0,1), on every profile and for every target. -/
theorem find_fraction_range (ts : TopSurf) (col : Nat) (p : Ptr) (t : ℚ) :
    0 ≤ (find ts col p t).fraction ∧ (find ts col p t).fraction < 1 := by
  unfold find
  by_cases hpos : t ≤ 0
  · rw [if_pos hpos]
    exact ⟨le_refl 0, zero_lt_one⟩
  · rw [if_neg hpos]
    cases hfr : firstReach p t (num_rows ts col) with
    | none => exact ⟨le_refl 0, zero_lt_one⟩
    | some r =>
      obtain ⟨_, hreach, hmin⟩ := firstReach_some p t (num_rows ts col) r hfr
      by_cases heq : p r = t
      · simp only [heq, if_true]
        exact ⟨le_refl 0, zero_lt_one⟩
      · simp only [heq, if_false]
        have hlt : t < p r := lt_of_le_of_ne hreach (fun h => heq h.symm)
        have hbelow : (if r = 0 then 0 else p (r - 1)) < t := by
          split
          · exact not_le.mp hpos
          · exact hmin (r - 1) (by omega)
        have hden : 0 < p r - (if r = 0 then 0 else p (r - 1)) := by linarith
        constructor
        · exact div_nonneg (by linarith) (le_of_lt hden)
        · rw [div_lt_one hden]
          linarith

/-- On a profile that is non-negative and non-decreasing over the rows of the column,
`find` at the cumulative value of a row boundary (the start of row `b`, or the end of
the last row for `b` equal to the row count) returns the earliest boundary with that
value, at offset 0. -/
theorem find_at_boundary (ts : TopSurf) (col : Nat) (p : Ptr)
    (hnn : ∀ i, i < num_rows ts col → 0 ≤ p i)
    (hmono : ∀ i j, i ≤ j → j < num_rows ts col → p i ≤ p j)
    (b : Nat) (hb : b ≤ num_rows ts col) :
    ∃ b2, b2 ≤ b ∧ boundaryVal p b2 = boundaryVal p b ∧
      (∀ j, j < b2 → boundaryVal p j < boundaryVal p b) ∧
      find ts col p (boundaryVal p b) = Elevation.mk b2 0 := by
  by_cases hpos : boundaryVal p b ≤ 0
  · -- the boundary value is 0, as for the start of row 0
    have h0 : boundaryVal p b = 0 := by
      apply le_antisymm hpos
      unfold boundaryVal
      split
      · exact le_refl 0
      · exact hnn (b - 1) (by omega)
    refine ⟨0, Nat.zero_le b, ?_, ?_, ?_⟩
    · rw [h0]; simp [boundaryVal]
    · intro j hj; omega
    · rw [h0]; simp [find]
  · have hb0 : b ≠ 0 := by
      intro hb0
      apply hpos
      simp [boundaryVal, hb0]
    have ht : boundaryVal p b = p (b - 1) := by simp [boundaryVal, hb0]
    cases hfr : firstReach p (boundaryVal p b) (num_rows ts col) with
    | none =>
      have := firstReach_none p (boundaryVal p b) (num_rows ts col) hfr (b - 1) (by omega)
      rw [ht] at this
      exact absurd this (lt_irrefl _)
    | some r =>
      obtain ⟨hr, hreach, hmin⟩ := firstReach_some p (boundaryVal p b) (num_rows ts col) r hfr
      have hrb : r ≤ b - 1 := by
        by_contra hcon
        have := hmin (b - 1) (by omega)
        rw [ht] at this
        exact absurd this (lt_irrefl _)
      have heq : p r = boundaryVal p b := by
        apply le_antisymm _ hreach
        rw [ht]
        exact hmono r (b - 1) hrb (by omega)
      refine ⟨r + 1, by omega, ?_, ?_, ?_⟩
      · simp [boundaryVal, heq]
      · intro j hj
        by_cases hj0 : j = 0
        · subst hj0
          simp only [boundaryVal, if_true]
          exact not_le.mp hpos
        · have : boundaryVal p j = p (j - 1) := by simp [boundaryVal, hj0]
          rw [this]
          exact hmin (j - 1) (by omega)
      · unfold find
        simp only [if_neg hpos, hfr, heq, if_true]

/-- A profile written by `wgt_dpt` from non-negative values over non-negative thicknesses
and a positive H is non-negative and non-decreasing over the rows of the column. -/
theorem wgt_dpt_nonneg_mono (ts : TopSurf) (col : Nat) (val res : Ptr)
    (hH : 0 < ts.h_tot col)
    (hdz : ∀ i, i < rlw_size ts col → 0 ≤ rlw_at ts ts.dz col i)
    (hval : ∀ i, i < rlw_size ts col → 0 ≤ val i) :
    (∀ i, i < rlw_size ts col → 0 ≤ wgt_dpt ts col val res i) ∧
    (∀ i j, i ≤ j → j < rlw_size ts col → wgt_dpt ts col val res i ≤ wgt_dpt ts col val res j) := by
  have hterm : ∀ i, i < rlw_size ts col → 0 ≤ val i * rlw_at ts ts.dz col i :=
    fun i hi => mul_nonneg (hval i hi) (hdz i hi)
  constructor
  · intro i hi
    rw [wgt_dpt_apply, if_pos hi]
    apply running_sum_div_nonneg (fun k => val k * rlw_at ts ts.dz col k) (ts.h_tot col) (i + 1) hH
    intro k hk
    exact hterm k (by omega)
  · intro i j hij
    induction j with
    | zero =>
      intro _
      have : i = 0 := by omega
      subst this
      exact le_refl _
    | succ j ih =>
      intro hj
      by_cases he : i = j + 1
      · subst he; exact le_refl _
      · have h1 := ih (by omega) (by omega)
        apply le_trans h1
        rw [wgt_dpt_apply, wgt_dpt_apply, if_pos hj, if_pos (Nat.lt_of_succ_lt hj)]
        exact running_sum_div_mono (fun k => val k * rlw_at ts ts.dz col k) (ts.h_tot col) j hH
          (hterm (j + 1) hj)

/-! ## Checked properties -/

/-- C1: for a store whose trapping vectors have one entry per column, any snapshot and
any column `col`, with `x = snap[col * numPhases + GAS]`: if `x` exceeds the stored
`max_gas_sat[col]`, then after `upd_res_sat (snap)` the stored maximum is `x` and the
stored elevation is `find (col, res_wat_dpt[col], upscaled_poro[col] * x)`; otherwise
both entries are what they were. The two new entries are the same for any other store
and snapshot that agree with these on column `col`. -/
theorem C1_upd_res_sat_column (s : VertEqPropsImpl) (snap : Ptr) (col : Nat)
    (hcol : col < s.ts.number_of_cells)
    (h1 : s.max_gas_sat.length = s.ts.number_of_cells)
    (h2 : s.max_gas_elev.length = s.ts.number_of_cells) :
    (snap (col * s.fp.numPhases + GAS) > s.max_gas_sat.getD col 0 →
      (upd_res_sat s snap).max_gas_sat[col]? = some (snap (col * s.fp.numPhases + GAS)) ∧
      (upd_res_sat s snap).max_gas_elev[col]? =
        some (find s.ts col (s.res_wat_dpt col)
          (s.upscaled_poro.getD col 0 * snap (col * s.fp.numPhases + GAS)))) ∧
    (¬ snap (col * s.fp.numPhases + GAS) > s.max_gas_sat.getD col 0 →
      (upd_res_sat s snap).max_gas_sat[col]? = s.max_gas_sat[col]? ∧
      (upd_res_sat s snap).max_gas_elev[col]? = s.max_gas_elev[col]?) ∧
    (∀ (t : VertEqPropsImpl) (b : Ptr),
      t.ts = s.ts → t.fp.numPhases = s.fp.numPhases →
      t.max_gas_sat.length = t.ts.number_of_cells →
      t.max_gas_elev.length = t.ts.number_of_cells →
      t.max_gas_sat[col]? = s.max_gas_sat[col]? →
      t.max_gas_elev[col]? = s.max_gas_elev[col]? →
      t.upscaled_poro.getD col 0 = s.upscaled_poro.getD col 0 →
      t.res_wat_dpt col = s.res_wat_dpt col →
      b (col * s.fp.numPhases + GAS) = snap (col * s.fp.numPhases + GAS) →
      (upd_res_sat t b).max_gas_sat[col]? = (upd_res_sat s snap).max_gas_sat[col]? ∧
      (upd_res_sat t b).max_gas_elev[col]? = (upd_res_sat s snap).max_gas_elev[col]?) := by
  obtain ⟨m, e⟩ := upd_res_sat_col s snap col hcol h1 h2
  have hlt : col < s.max_gas_sat.length := by rw [h1]; exact hcol
  refine ⟨?_, ?_, ?_⟩
  · intro hx
    rw [m, e, if_pos hx, if_pos hx]
    exact ⟨rfl, rfl⟩
  · intro hx
    rw [m, e, if_neg hx, if_neg hx]
    refine ⟨?_, rfl⟩
    simp [List.getD_eq_getElem?_getD, List.getElem?_eq_getElem hlt]
  · intro t b hts hnp g1 g2 gm ge gp gr gb
    obtain ⟨m2, e2⟩ := upd_res_sat_col t b col (by rw [hts]; exact hcol) g1 g2
    have hd : t.max_gas_sat.getD col 0 = s.max_gas_sat.getD col 0 := by
      simp [List.getD_eq_getElem?_getD, gm]
    have hre : ∀ x, res_elev t col x = res_elev s col x := by
      intro x
      show find t.ts col (t.res_wat_dpt col) (t.upscaled_poro.getD col 0 * x) =
        find s.ts col (s.res_wat_dpt col) (s.upscaled_poro.getD col 0 * x)
      rw [hts, gp, gr]
    rw [m, e, m2, e2, hnp, gb, hd, hre, ge]
    exact ⟨rfl, rfl⟩

/-- Witness of C1: the store of the spec's worked case, a snapshot holding 0.5, column 0:
the stored maximum becomes 0.5. -/
theorem C1_upd_res_sat_column_witness :
    (0 < (construct specFine specTop).ts.number_of_cells ∧
      (construct specFine specTop).max_gas_sat.length =
        (construct specFine specTop).ts.number_of_cells ∧
      (construct specFine specTop).max_gas_elev.length =
        (construct specFine specTop).ts.number_of_cells) ∧
    (upd_res_sat (construct specFine specTop) (snapConst (1 / 2))).max_gas_sat[0]? =
      some (1 / 2) ∧
    (upd_res_sat (construct specFine specTop) (snapConst (1 / 2))).max_gas_elev[0]? =
      some (find specTop 0 ((construct specFine specTop).res_wat_dpt 0)
        ((construct specFine specTop).upscaled_poro.getD 0 0 * (1 / 2))) :=
  ⟨⟨by decide, by decide, by decide⟩,
    (C1_upd_res_sat_column (construct specFine specTop) (snapConst (1 / 2)) 0
      (by decide) (by decide) (by decide)).1
      (by
        rw [(construct_reachable specFine specTop).2.2.2.2 0 (by decide)]
        norm_num [snapConst])⟩

/-- C2: on a freshly constructed store, for a column `col` and snapshots whose gas
saturations for that column are `s1`, then `s2` with `s1 < s2` (saturations being
non-negative, `0 ≤ s1`), the stored maximum after the two calls is `s2` and the stored
elevation is `res_elev (col, s2)`; a third snapshot with a value `s3 < s2` for the
column leaves both unchanged. -/
theorem C2_ratchet_monotonicity (fp : IncompPropertiesInterface) (ts : TopSurf)
    (a b c : Ptr) (col : Nat) (hcol : col < ts.number_of_cells)
    (hdom : 0 ≤ a (col * fp.numPhases + GAS))
    (h12 : a (col * fp.numPhases + GAS) < b (col * fp.numPhases + GAS))
    (h3 : c (col * fp.numPhases + GAS) < b (col * fp.numPhases + GAS)) :
    (upd_res_sat (upd_res_sat (construct fp ts) a) b).max_gas_sat[col]? =
      some (b (col * fp.numPhases + GAS)) ∧
    (upd_res_sat (upd_res_sat (construct fp ts) a) b).max_gas_elev[col]? =
      some (res_elev (construct fp ts) col (b (col * fp.numPhases + GAS))) ∧
    (upd_res_sat (upd_res_sat (upd_res_sat (construct fp ts) a) b) c).max_gas_sat[col]? =
      (upd_res_sat (upd_res_sat (construct fp ts) a) b).max_gas_sat[col]? ∧
    (upd_res_sat (upd_res_sat (upd_res_sat (construct fp ts) a) b) c).max_gas_elev[col]? =
      (upd_res_sat (upd_res_sat (construct fp ts) a) b).max_gas_elev[col]? := by
  obtain ⟨r1, r2, r3, r4, r5⟩ := construct_reachable fp ts
  obtain ⟨⟨f1, f2, f3, f4⟩, hA⟩ := upd_res_sat_step fp ts (construct fp ts) a r1 r2 r3 r4
  obtain ⟨⟨g1, g2, g3, g4⟩, hB⟩ := upd_res_sat_step fp ts _ b f1 f2 f3 f4
  obtain ⟨_, hC⟩ := upd_res_sat_step fp ts _ c g1 g2 g3 g4
  obtain ⟨a1, _⟩ := hA col hcol
  obtain ⟨b1, b2⟩ := hB col hcol
  obtain ⟨c1, c2⟩ := hC col hcol
  rw [r5 col hcol] at a1
  have hpos : 0 < b (col * fp.numPhases + GAS) := lt_of_le_of_lt hdom h12
  have hno : ¬ c (col * fp.numPhases + GAS) > b (col * fp.numPhases + GAS) :=
    not_lt.mpr (le_of_lt h3)
  -- the second saturation exceeds whatever the first call stored
  have hlt : (upd_res_sat (construct fp ts) a).max_gas_sat.getD col 0 <
      b (col * fp.numPhases + GAS) := by
    rw [List.getD_eq_getElem?_getD, a1]
    simp only [Option.getD_some]
    split
    · exact h12
    · exact hpos
  have hb1 : (upd_res_sat (upd_res_sat (construct fp ts) a) b).max_gas_sat[col]? =
      some (b (col * fp.numPhases + GAS)) := by
    rw [b1, if_pos hlt]
  have hb2 : (upd_res_sat (upd_res_sat (construct fp ts) a) b).max_gas_elev[col]? =
      some (res_elev (construct fp ts) col (b (col * fp.numPhases + GAS))) := by
    rw [b2, if_pos hlt, res_elev_upd_res_sat]
  have hd : (upd_res_sat (upd_res_sat (construct fp ts) a) b).max_gas_sat.getD col 0 =
      b (col * fp.numPhases + GAS) := by
    rw [List.getD_eq_getElem?_getD, hb1]; rfl
  refine ⟨hb1, hb2, ?_, ?_⟩
  · rw [c1, hd, hb1, if_neg hno]
  · rw [c2, hd, if_neg hno]

/-- Witness of C2: the spec's worked case with the saturations 0.25, 0.5 and then 0.125
for column 0; the stored maximum after the first two is 0.5 and the third keeps it. -/
theorem C2_ratchet_monotonicity_witness :
    (0 < specTop.number_of_cells ∧
      0 ≤ snapConst (1 / 4) (0 * specFine.numPhases + GAS) ∧
      snapConst (1 / 4) (0 * specFine.numPhases + GAS) <
        snapConst (1 / 2) (0 * specFine.numPhases + GAS) ∧
      snapConst (1 / 8) (0 * specFine.numPhases + GAS) <
        snapConst (1 / 2) (0 * specFine.numPhases + GAS)) ∧
    (upd_res_sat (upd_res_sat (construct specFine specTop) (snapConst (1 / 4)))
      (snapConst (1 / 2))).max_gas_sat[0]? = some (1 / 2) ∧
    (upd_res_sat (upd_res_sat (upd_res_sat (construct specFine specTop) (snapConst (1 / 4)))
      (snapConst (1 / 2))) (snapConst (1 / 8))).max_gas_sat[0]? =
      (upd_res_sat (upd_res_sat (construct specFine specTop) (snapConst (1 / 4)))
        (snapConst (1 / 2))).max_gas_sat[0]? :=
  ⟨⟨by decide, by norm_num [snapConst], by norm_num [snapConst], by norm_num [snapConst]⟩,
    (C2_ratchet_monotonicity specFine specTop (snapConst (1 / 4)) (snapConst (1 / 2))
      (snapConst (1 / 8)) 0 (by decide) (by norm_num [snapConst]) (by norm_num [snapConst])
      (by norm_num [snapConst])).1,
    (C2_ratchet_monotonicity specFine specTop (snapConst (1 / 4)) (snapConst (1 / 2))
      (snapConst (1 / 8)) 0 (by decide) (by norm_num [snapConst]) (by norm_num [snapConst])
      (by norm_num [snapConst])).2.2.1⟩

/-- C3: in every store reached from construction by `upd_res_sat` calls, and for every
further call, the stored maximum of a column is at least 0 before the call, is not
smaller after the call than before it, and the stored elevation of the column differs
after the call only if the stored maximum is strictly larger after it. -/
theorem C3_max_gas_sat_never_decreases (fp : IncompPropertiesInterface) (ts : TopSurf)
    (snaps : List Ptr) (snap : Ptr) (col : Nat) (hcol : col < ts.number_of_cells) :
    ∃ m m2 : ℚ,
      (run (construct fp ts) snaps).max_gas_sat[col]? = some m ∧
      (upd_res_sat (run (construct fp ts) snaps) snap).max_gas_sat[col]? = some m2 ∧
      0 ≤ m ∧ m ≤ m2 ∧
      ((upd_res_sat (run (construct fp ts) snaps) snap).max_gas_elev[col]? ≠
          (run (construct fp ts) snaps).max_gas_elev[col]? → m < m2) := by
  obtain ⟨r1, r2, r3, r4, r5⟩ := construct_reachable fp ts
  obtain ⟨q1, q2, q3, q4, q5⟩ := run_reachable fp ts snaps (construct fp ts) r1 r2 r3 r4
    (fun c hc => le_of_eq (r5 c hc).symm)
  obtain ⟨_, hS⟩ := upd_res_sat_step fp ts _ snap q1 q2 q3 q4
  obtain ⟨s1, s2⟩ := hS col hcol
  have hlt : col < (run (construct fp ts) snaps).max_gas_sat.length := by rw [q3]; exact hcol
  refine ⟨(run (construct fp ts) snaps).max_gas_sat.getD col 0, _, ?_, s1, q5 col hcol, ?_, ?_⟩
  · simp [List.getD_eq_getElem?_getD, List.getElem?_eq_getElem hlt]
  · split
    · exact le_of_lt (by assumption)
    · exact le_refl _
  · intro hne
    rw [s2] at hne
    by_cases hx : snap (col * fp.numPhases + GAS) >
        (run (construct fp ts) snaps).max_gas_sat.getD col 0
    · rw [if_pos hx]; exact hx
    · rw [if_neg hx] at hne
      exact absurd rfl hne

/-- Witness of C3: the spec's worked case after the snapshots 0.25 and 0.5, with a
further snapshot 0.125, column 0. -/
theorem C3_max_gas_sat_never_decreases_witness :
    0 < specTop.number_of_cells ∧
    ∃ m m2 : ℚ,
      (run (construct specFine specTop) [snapConst (1 / 4), snapConst (1 / 2)]).max_gas_sat[0]?
        = some m ∧
      (upd_res_sat (run (construct specFine specTop) [snapConst (1 / 4), snapConst (1 / 2)])
        (snapConst (1 / 8))).max_gas_sat[0]? = some m2 ∧
      0 ≤ m ∧ m ≤ m2 ∧
      ((upd_res_sat (run (construct specFine specTop) [snapConst (1 / 4), snapConst (1 / 2)])
          (snapConst (1 / 8))).max_gas_elev[0]? ≠
        (run (construct specFine specTop) [snapConst (1 / 4), snapConst (1 / 2)]).max_gas_elev[0]?
        → m < m2) :=
  ⟨by decide,
    C3_max_gas_sat_never_decreases specFine specTop [snapConst (1 / 4), snapConst (1 / 2)]
      (snapConst (1 / 8)) 0 (by decide)⟩

/-- C4: in the spec's worked case the constructor leaves 0.02 in the final entry of
`res_wat_dpt`, whereas the sum of porosity × complement × thickness over the column
divided by H is 0.16. -/
theorem C4_res_wat_dpt_final_entry :
    (construct specFine specTop).res_wat_dpt 0 1 = 1 / 50 ∧
    (∑ i in Finset.range 2,
        specFine.porosity (rlw_at specTop specTop.col_cells 0 i) *
          (sat_query specFine specTop 0).2 (i * specFine.numPhases + GAS) *
          rlw_at specTop specTop.dz 0 i) / specTop.h_tot 0 = 4 / 25 := by
  constructor
  · simp [construct, ctor_upto, forLoop, ctor_col, ctor_init, specTop, specFine, wgt_dpt,
      vol_fractions, gather, rlw_size, rlw_at, assign, fill, GAS]
    norm_num
  · simp [sat_query, ctor_upto, forLoop, ctor_init, specTop, specFine, rlw_size, rlw_at,
      assign, fill, GAS, Finset.sum_range_succ]
    norm_num

/-- C5: after construction, row `r` of `res_gas_dpt[col]` is the sum over the rows
`0 .. r` of porosity × residual-gas saturation × thickness, divided by H, the
saturation of row `i` being entry `i * numPhases + GAS` of the first array returned by
the fine saturation-range query; in the spec's worked case the final entry is 0.02. -/
theorem C5_res_gas_dpt_profile :
    (∀ (fp : IncompPropertiesInterface) (ts : TopSurf) (col r : Nat),
      col < ts.number_of_cells → r < rlw_size ts col →
      (construct fp ts).res_gas_dpt col r =
        (∑ i in Finset.range (r + 1),
            fp.porosity (rlw_at ts ts.col_cells col i) *
              (sat_query fp ts col).1 (i * fp.numPhases + GAS) * rlw_at ts ts.dz col i) /
          ts.h_tot col) ∧
    (construct specFine specTop).res_gas_dpt 0 1 = 1 / 50 := by
  refine ⟨construct_res_gas_dpt, ?_⟩
  simp [construct, ctor_upto, forLoop, ctor_col, ctor_init, specTop, specFine, wgt_dpt,
    vol_fractions, gather, rlw_size, rlw_at, assign, fill, GAS]
  norm_num

/-- Witness of C5 at the spec's worked case, column 0, row 1. -/
theorem C5_res_gas_dpt_profile_witness :
    (0 < specTop.number_of_cells ∧ 1 < rlw_size specTop 0) ∧
    (construct specFine specTop).res_gas_dpt 0 1 =
      (∑ i in Finset.range (1 + 1),
          specFine.porosity (rlw_at specTop specTop.col_cells 0 i) *
            (sat_query specFine specTop 0).1 (i * specFine.numPhases + GAS) *
            rlw_at specTop specTop.dz 0 i) / specTop.h_tot 0 :=
  ⟨⟨by decide, by decide⟩,
    C5_res_gas_dpt_profile.1 specFine specTop 0 1 (by decide) (by decide)⟩

/-- C6: `satRange (n, cells, smin, smax)` sets `smin[i] = 0` and `smax[i] = 1` for every
`i < n * numPhases`, whatever `cells` holds, and leaves every entry at an index
`≥ n * numPhases` as it was. -/
theorem C6_satRange_unit_interval (self : VertEqPropsImpl) (n : Nat) (cells : Nat → Nat)
    (smin smax : Ptr) :
    (∀ i, i < n * self.fp.numPhases →
        (satRange self n cells smin smax).1 i = 0 ∧ (satRange self n cells smin smax).2 i = 1) ∧
    (∀ i, n * self.fp.numPhases ≤ i →
        (satRange self n cells smin smax).1 i = smin i ∧
        (satRange self n cells smin smax).2 i = smax i) ∧
    (∀ cells2 : Nat → Nat, satRange self n cells2 smin smax = satRange self n cells smin smax) := by
  refine ⟨?_, ?_, ?_⟩
  · intro i hi
    simp [satRange, fill_apply, hi]
  · intro i hi
    have h : ¬ i < n * self.fp.numPhases := by omega
    simp [satRange, fill_apply, h]
  · intro cells2
    rfl

/-- Witness of C6: one requested cell of a two-phase store, output memory holding 5. -/
theorem C6_satRange_unit_interval_witness :
    (1 < 1 * (construct specFine specTop).fp.numPhases ∧
      1 * (construct specFine specTop).fp.numPhases ≤ 2) ∧
    (satRange (construct specFine specTop) 1 (fun _ => 7) (snapConst 5) (snapConst 5)).1 1 = 0 ∧
    (satRange (construct specFine specTop) 1 (fun _ => 7) (snapConst 5) (snapConst 5)).2 1 = 1 ∧
    (satRange (construct specFine specTop) 1 (fun _ => 7) (snapConst 5) (snapConst 5)).1 2 =
      snapConst 5 2 :=
  ⟨⟨by decide, by decide⟩,
    ((C6_satRange_unit_interval (construct specFine specTop) 1 (fun _ => 7) (snapConst 5)
      (snapConst 5)).1 1 (by decide)).1,
    ((C6_satRange_unit_interval (construct specFine specTop) 1 (fun _ => 7) (snapConst 5)
      (snapConst 5)).1 1 (by decide)).2,
    ((C6_satRange_unit_interval (construct specFine specTop) 1 (fun _ => 7) (snapConst 5)
      (snapConst 5)).2.1 2 (by decide)).1⟩

/-- C7: `relperm` and `capPress` leave by the not-implemented exception on every input,
and the memory behind their output pointers is then what it was at the call. -/
theorem C7_relperm_capPress_not_implemented (self : VertEqPropsImpl) (n : Nat) (s : Ptr)
    (cells : Nat → Nat) (out1 out2 : Ptr) :
    relperm self n s cells out1 out2 = (Except.error notImplementedMsg, out1, out2) ∧
    capPress self n s cells out1 out2 = (Except.error notImplementedMsg, out1, out2) ∧
    (∀ u : Unit, (relperm self n s cells out1 out2).1 ≠ Except.ok u) ∧
    (∀ u : Unit, (capPress self n s cells out1 out2).1 ≠ Except.ok u) := by
  refine ⟨rfl, rfl, ?_, ?_⟩ <;> intro u h <;> simp [relperm, capPress] at h

/-- C8: in the spec's worked case with every fine permeability entry 1, no entry is
stored at the offsets 4*0 + 1 and 4*0 + 2 of `upscaled_absperm` after construction,
although the depth-weighted average of the gathered xy entries is 1. -/
theorem C8_absperm_offdiagonal_not_stored :
    (construct specFine specTop).upscaled_absperm[PERM_MATRIX_2D * 0 + KXY_OFS_2D]? = none ∧
    (construct specFine specTop).upscaled_absperm[PERM_MATRIX_2D * 0 + KYX_OFS_2D]? = none ∧
    dpt_avg specTop 0
      (gather specTop 0 (fun _ => 0) specFine.permeability PERM_MATRIX_3D KXY_OFS_3D) = 1 := by
  refine ⟨?_, ?_, ?_⟩
  · simp [construct, ctor_upto_absperm]
  · simp [construct, ctor_upto_absperm]
  · have hn : rlw_size specTop 0 = 2 := rfl
    simp only [dpt_avg, hn, Finset.sum_range_succ, Finset.sum_range_zero, gather_apply]
    norm_num [specTop, specFine, rlw_at]

/-- C9: in the spec's worked case (one column) the storage of `upscaled_absperm` has
length 0, not 4, when the constructor stores at the offsets 4*0 + k, so none of the
four stores of column 0 is within bounds; `upscaled_poro` has length 1. -/
theorem C9_absperm_storage_not_allocated :
    (ctor_upto specFine specTop 0).self.upscaled_absperm.length = 0 ∧
    PERM_MATRIX_2D * specTop.number_of_cells = 4 ∧
    (∀ k, k < 4 →
      ¬ PERM_MATRIX_2D * 0 + k < (ctor_upto specFine specTop 0).self.upscaled_absperm.length) ∧
    (construct specFine specTop).upscaled_absperm.length = 0 ∧
    (ctor_upto specFine specTop 0).self.upscaled_poro.length = specTop.number_of_cells := by
  refine ⟨?_, ?_, ?_, ?_, ?_⟩
  · simp [ctor_upto_absperm]
  · decide
  · intro k _
    simp [ctor_upto_absperm]
  · simp [construct, ctor_upto_absperm]
  · exact ctor_upto_poro_length specFine specTop 0

/-- C10: for a column whose thicknesses sum to its total thickness H > 0 (such a column
is non-empty) and whose fine cells all have porosity `v`, the upscaled porosity stored
at construction, the depth-weighted average of the gathered porosities, is exactly `v`. -/
theorem C10_average_of_constant (fp : IncompPropertiesInterface) (ts : TopSurf) (col : Nat)
    (v : ℚ) (hcol : col < ts.number_of_cells)
    (hsum : ∑ row in Finset.range (rlw_size ts col), rlw_at ts ts.dz col row = ts.h_tot col)
    (hH : 0 < ts.h_tot col)
    (hv : ∀ row, row < rlw_size ts col → fp.porosity (rlw_at ts ts.col_cells col row) = v) :
    (construct fp ts).upscaled_poro[col]? = some v := by
  rw [construct_upscaled_poro fp ts col hcol]
  have hs : ∑ row in Finset.range (rlw_size ts col),
      fp.porosity (rlw_at ts ts.col_cells col row) * rlw_at ts ts.dz col row =
      v * ts.h_tot col := by
    rw [← hsum, Finset.mul_sum]
    apply Finset.sum_congr rfl
    intro i hi
    rw [hv i (Finset.mem_range.mp hi)]
  rw [hs]
  have hne : ts.h_tot col ≠ 0 := ne_of_gt hH
  rw [mul_div_assoc, div_self hne, mul_one]

/-- Witness of C10 at the spec's worked case: the upscaled porosity of column 0 is 0.2. -/
theorem C10_average_of_constant_witness :
    (construct specFine specTop).upscaled_poro[0]? = some (1 / 5) :=
  C10_average_of_constant specFine specTop 0 (1 / 5) (by decide)
    (by simp [specTop, rlw_size, rlw_at, Finset.sum_range_succ])
    (by simp [specTop])
    (by intro row _; rfl)

/-- C11: for a column with H ≠ 0, `wgt_dpt` writes `res[r] = (sum over i = 0..r of
val[i] * dz[i]) / H` for every row `r` below the row count, leaves every entry of `res`
at an index at or above the row count as it was, and writes nothing for an empty
column. -/
theorem C11_wgt_dpt_running_sum (ts : TopSurf) (col : Nat) (val res : Ptr)
    (_hH : ts.h_tot col ≠ 0) :
    (∀ r, r < rlw_size ts col →
      wgt_dpt ts col val res r =
        (∑ i in Finset.range (r + 1), val i * rlw_at ts ts.dz col i) / ts.h_tot col) ∧
    (∀ r, rlw_size ts col ≤ r → wgt_dpt ts col val res r = res r) ∧
    (rlw_size ts col = 0 → wgt_dpt ts col val res = res) := by
  refine ⟨?_, ?_, ?_⟩
  · intro r hr
    rw [wgt_dpt_apply, if_pos hr]
  · intro r hr
    rw [wgt_dpt_apply, if_neg (by omega)]
  · intro h0
    funext r
    rw [wgt_dpt_apply, if_neg (by omega)]

/-- Witness of C11: the column of the spec's worked case with the values 3 in every row,
written over memory holding 7: row 1 receives (3*1 + 3*1) / 2 = 3, entry 2 keeps 7. -/
theorem C11_wgt_dpt_running_sum_witness :
    specTop.h_tot 0 ≠ 0 ∧
    wgt_dpt specTop 0 (snapConst 3) (snapConst 7) 1 =
      (∑ i in Finset.range (1 + 1), snapConst 3 i * rlw_at specTop specTop.dz 0 i) /
        specTop.h_tot 0 ∧
    wgt_dpt specTop 0 (snapConst 3) (snapConst 7) 2 = snapConst 7 2 :=
  ⟨by norm_num [specTop],
    (C11_wgt_dpt_running_sum specTop 0 (snapConst 3) (snapConst 7)
      (by norm_num [specTop])).1 1 (by decide),
    (C11_wgt_dpt_running_sum specTop 0 (snapConst 3) (snapConst 7)
      (by norm_num [specTop])).2.1 2 (by decide)⟩

/-- C12: for a non-empty column with H ≠ 0, the last entry written by `wgt_dpt` (index
row count - 1) is the sum over all rows of `val[row] * dz[row]` divided by H, which is
the depth-weighted average `dpt_avg` of the same values. -/
theorem C12_profile_endpoint_is_average (ts : TopSurf) (col : Nat) (val res : Ptr)
    (hrows : 0 < rlw_size ts col) (_hH : ts.h_tot col ≠ 0) :
    wgt_dpt ts col val res (rlw_size ts col - 1) =
      (∑ row in Finset.range (rlw_size ts col), val row * rlw_at ts ts.dz col row) /
        ts.h_tot col ∧
    wgt_dpt ts col val res (rlw_size ts col - 1) = dpt_avg ts col val := by
  have hlt : rlw_size ts col - 1 < rlw_size ts col := by omega
  have hs : rlw_size ts col - 1 + 1 = rlw_size ts col := by omega
  have h : wgt_dpt ts col val res (rlw_size ts col - 1) =
      (∑ row in Finset.range (rlw_size ts col), val row * rlw_at ts ts.dz col row) /
        ts.h_tot col := by
    rw [wgt_dpt_apply, if_pos hlt, hs]
  exact ⟨h, h⟩

/-- Witness of C12: the column of the spec's worked case with the value 3 in every row. -/
theorem C12_profile_endpoint_is_average_witness :
    (0 < rlw_size specTop 0 ∧ specTop.h_tot 0 ≠ 0) ∧
    wgt_dpt specTop 0 (snapConst 3) (snapConst 7) (rlw_size specTop 0 - 1) =
      dpt_avg specTop 0 (snapConst 3) :=
  ⟨⟨by decide, by norm_num [specTop]⟩,
    (C12_profile_endpoint_is_average specTop 0 (snapConst 3) (snapConst 7) (by decide)
      (by norm_num [specTop])).2⟩

/-- C13: for a column with H > 0, non-negative thicknesses and non-negative values, the
profile written by `wgt_dpt` satisfies `res[r] ≤ res[r+1]` whenever `r + 1` is below
the row count, and `res[0] ≥ 0` (for a non-empty column, where `res[0]` is written). -/
theorem C13_wgt_dpt_monotone (ts : TopSurf) (col : Nat) (val res : Ptr)
    (hH : 0 < ts.h_tot col)
    (hdz : ∀ i, i < rlw_size ts col → 0 ≤ rlw_at ts ts.dz col i)
    (hval : ∀ i, i < rlw_size ts col → 0 ≤ val i) :
    (∀ r, r + 1 < rlw_size ts col →
      wgt_dpt ts col val res r ≤ wgt_dpt ts col val res (r + 1)) ∧
    (0 < rlw_size ts col → 0 ≤ wgt_dpt ts col val res 0) := by
  constructor
  · intro r hr
    rw [wgt_dpt_apply, wgt_dpt_apply, if_pos hr, if_pos (Nat.lt_of_succ_lt hr)]
    exact running_sum_div_mono (fun i => val i * rlw_at ts ts.dz col i) (ts.h_tot col) r hH
      (mul_nonneg (hval (r + 1) hr) (hdz (r + 1) hr))
  · intro hn
    rw [wgt_dpt_apply, if_pos hn]
    apply running_sum_div_nonneg (fun i => val i * rlw_at ts ts.dz col i) (ts.h_tot col) (0 + 1) hH
    intro i hi
    have hi2 : i < rlw_size ts col := by omega
    exact mul_nonneg (hval i hi2) (hdz i hi2)

/-- Witness of C13: the column of the spec's worked case with the value 3 in every row. -/
theorem C13_wgt_dpt_monotone_witness :
    (0 < specTop.h_tot 0 ∧
      (∀ i, i < rlw_size specTop 0 → 0 ≤ rlw_at specTop specTop.dz 0 i) ∧
      (∀ i, i < rlw_size specTop 0 → 0 ≤ snapConst 3 i)) ∧
    wgt_dpt specTop 0 (snapConst 3) (snapConst 7) 0 ≤
      wgt_dpt specTop 0 (snapConst 3) (snapConst 7) (0 + 1) :=
  ⟨⟨by norm_num [specTop], fun _ _ => by norm_num [specTop, rlw_at],
      fun _ _ => by norm_num [snapConst]⟩,
    (C13_wgt_dpt_monotone specTop 0 (snapConst 3) (snapConst 7) (by norm_num [specTop])
      (fun _ _ => by norm_num [specTop, rlw_at]) (fun _ _ => by norm_num [snapConst])).1 0
      (by decide)⟩

/-- C14 as stated fails for the mobile-fraction profile: with thickness 1, H = 2,
porosity 0.2, residual gas saturation 0.9 and complement of residual water 0.1 (all
inside the stated ranges), `mob_mix_dpt` of the column holds -0.08 then -0.16. -/
theorem C14_mobile_profile_counterexample :
    (0 < specTop.h_tot 0 ∧ 0 < rlw_at specTop specTop.dz 0 0 ∧
      0 < rlw_at specTop specTop.dz 0 1 ∧ 0 ≤ crossFine.porosity 0 ∧
      0 ≤ crossFine.porosity 1) ∧
    ((sat_query crossFine specTop 0).1 (0 * crossFine.numPhases + GAS) = 9 / 10 ∧
      (sat_query crossFine specTop 0).1 (1 * crossFine.numPhases + GAS) = 9 / 10 ∧
      (sat_query crossFine specTop 0).2 (0 * crossFine.numPhases + GAS) = 1 / 10 ∧
      (sat_query crossFine specTop 0).2 (1 * crossFine.numPhases + GAS) = 1 / 10) ∧
    (construct crossFine specTop).mob_mix_dpt 0 0 = -(2 / 25) ∧
    (construct crossFine specTop).mob_mix_dpt 0 1 = -(4 / 25) ∧
    ¬ (construct crossFine specTop).mob_mix_dpt 0 0 ≤
      (construct crossFine specTop).mob_mix_dpt 0 1 := by
  have h0 : (construct crossFine specTop).mob_mix_dpt 0 0 = -(2 / 25) := by
    simp [construct, ctor_upto, forLoop, ctor_col, ctor_init, specTop, crossFine, wgt_dpt,
      vol_fractions, gather, rlw_size, rlw_at, assign, fill, GAS]
    norm_num
  have h1 : (construct crossFine specTop).mob_mix_dpt 0 1 = -(4 / 25) := by
    simp [construct, ctor_upto, forLoop, ctor_col, ctor_init, specTop, crossFine, wgt_dpt,
      vol_fractions, gather, rlw_size, rlw_at, assign, fill, GAS]
    norm_num
  refine ⟨?_, ?_, h0, h1, ?_⟩
  · norm_num [specTop, crossFine, rlw_at]
  · simp [sat_query, ctor_upto, forLoop, ctor_init, specTop, crossFine, rlw_size, rlw_at,
      assign, fill, GAS]
  · rw [h0, h1]
    norm_num

/-- C14 (amended): in a constructed store, for a column with positive cell thicknesses
and H > 0 whose fine porosities are non-negative and whose fine saturation-range values
lie in [0,1] with the residual gas saturation not above the complement of residual
water saturation in any cell, the three profiles `res_gas_dpt`, `mob_mix_dpt` and
`res_wat_dpt` of the column are non-decreasing along the column. -/
theorem C14_store_profiles_monotone (fp : IncompPropertiesInterface) (ts : TopSurf) (col : Nat)
    (hcol : col < ts.number_of_cells) (hH : 0 < ts.h_tot col)
    (hdz : ∀ i, i < rlw_size ts col → 0 < rlw_at ts ts.dz col i)
    (hporo : ∀ i, i < rlw_size ts col → 0 ≤ fp.porosity (rlw_at ts ts.col_cells col i))
    (hsgr : ∀ i, i < rlw_size ts col →
      0 ≤ (sat_query fp ts col).1 (i * fp.numPhases + GAS) ∧
      (sat_query fp ts col).1 (i * fp.numPhases + GAS) ≤ 1)
    (_hlswr : ∀ i, i < rlw_size ts col →
      0 ≤ (sat_query fp ts col).2 (i * fp.numPhases + GAS) ∧
      (sat_query fp ts col).2 (i * fp.numPhases + GAS) ≤ 1)
    (hord : ∀ i, i < rlw_size ts col →
      (sat_query fp ts col).1 (i * fp.numPhases + GAS) ≤
        (sat_query fp ts col).2 (i * fp.numPhases + GAS)) :
    ∀ r, r + 1 < rlw_size ts col →
      (construct fp ts).res_gas_dpt col r ≤ (construct fp ts).res_gas_dpt col (r + 1) ∧
      (construct fp ts).mob_mix_dpt col r ≤ (construct fp ts).mob_mix_dpt col (r + 1) ∧
      (construct fp ts).res_wat_dpt col r ≤ (construct fp ts).res_wat_dpt col (r + 1) := by
  intro r hr
  have hr0 : r < rlw_size ts col := Nat.lt_of_succ_lt hr
  have hgas : (construct fp ts).res_gas_dpt col r ≤ (construct fp ts).res_gas_dpt col (r + 1) := by
    rw [construct_res_gas_dpt fp ts col r hcol hr0, construct_res_gas_dpt fp ts col (r + 1) hcol hr]
    exact running_sum_div_mono
      (fun i => fp.porosity (rlw_at ts ts.col_cells col i) *
        (sat_query fp ts col).1 (i * fp.numPhases + GAS) * rlw_at ts ts.dz col i)
      (ts.h_tot col) r hH
      (mul_nonneg (mul_nonneg (hporo (r + 1) hr) (hsgr (r + 1) hr).1) (le_of_lt (hdz (r + 1) hr)))
  refine ⟨hgas, ?_, ?_⟩
  · rw [construct_mob_mix_dpt fp ts col r hcol hr0, construct_mob_mix_dpt fp ts col (r + 1) hcol hr]
    exact running_sum_div_mono
      (fun i => fp.porosity (rlw_at ts ts.col_cells col i) *
        ((sat_query fp ts col).2 (i * fp.numPhases + GAS) -
          (sat_query fp ts col).1 (i * fp.numPhases + GAS)) * rlw_at ts ts.dz col i)
      (ts.h_tot col) r hH
      (mul_nonneg (mul_nonneg (hporo (r + 1) hr) (sub_nonneg.mpr (hord (r + 1) hr)))
        (le_of_lt (hdz (r + 1) hr)))
  · rw [construct_res_wat_dpt fp ts col r hcol hr0, construct_res_wat_dpt fp ts col (r + 1) hcol hr]
    exact hgas

/-- Witness of C14 (amended): the spec's worked case (saturation-range values 0.1 and
0.8), column 0, rows 0 and 1. -/
theorem C14_store_profiles_monotone_witness :
    (0 < specTop.number_of_cells ∧ 0 < specTop.h_tot 0) ∧
    (construct specFine specTop).res_gas_dpt 0 0 ≤ (construct specFine specTop).res_gas_dpt 0 (0 + 1) ∧
    (construct specFine specTop).mob_mix_dpt 0 0 ≤ (construct specFine specTop).mob_mix_dpt 0 (0 + 1) ∧
    (construct specFine specTop).res_wat_dpt 0 0 ≤ (construct specFine specTop).res_wat_dpt 0 (0 + 1) :=
  ⟨⟨by decide, by norm_num [specTop]⟩,
    C14_store_profiles_monotone specFine specTop 0 (by decide) (by norm_num [specTop])
      (fun _ _ => by norm_num [specTop, rlw_at])
      (fun _ _ => by norm_num [specFine])
      (fun i hi => by
        have hi2 : i * 2 < 2 * 2 := by
          have : i < 2 := hi
          omega
        simp [sat_query, specFine, fill_apply, GAS, rlw_size, specTop, hi2]
        norm_num)
      (fun i hi => by
        have hi2 : i * 2 < 2 * 2 := by
          have : i < 2 := hi
          omega
        simp [sat_query, specFine, fill_apply, GAS, rlw_size, specTop, hi2]
        norm_num)
      (fun i hi => by
        have hi2 : i * 2 < 2 * 2 := by
          have : i < 2 := hi
          omega
        simp [sat_query, specFine, fill_apply, GAS, rlw_size, specTop, hi2]
        norm_num)
      0 (by decide)⟩

/-- C15: after `gather (col, buf, data, stride, offset)`, `buf[r]` holds
`data[cells[r] * stride + offset]` for every row `r` below the row count, `cells` being
the column's fine-cell-index list in topology order, and every entry of `buf` at an
index at or above the row count is as it was; `data` is only read (the call returns no
new content for it). -/
theorem C15_gather_frame (ts : TopSurf) (col : Nat) (buf data : Ptr) (stride offset : Nat) :
    (∀ r, r < rlw_size ts col →
      gather ts col buf data stride offset r =
        data (ts.col_cells (ts.col_cellpos col + r) * stride + offset)) ∧
    (∀ r, rlw_size ts col ≤ r → gather ts col buf data stride offset r = buf r) := by
  constructor
  · intro r hr
    rw [gather_apply, if_pos hr]
    rfl
  · intro r hr
    rw [gather_apply, if_neg (by omega)]

/-- Witness of C15: the column of the spec's worked case, stride 9 and offset 1, a source
array holding twice its index, a buffer holding 7. -/
theorem C15_gather_frame_witness :
    (1 < rlw_size specTop 0 ∧ rlw_size specTop 0 ≤ 2) ∧
    gather specTop 0 (snapConst 7) (fun i => 2 * (i : ℚ)) 9 1 1 = 20 ∧
    gather specTop 0 (snapConst 7) (fun i => 2 * (i : ℚ)) 9 1 2 = 7 :=
  ⟨⟨by decide, by decide⟩,
    ((C15_gather_frame specTop 0 (snapConst 7) (fun i => 2 * (i : ℚ)) 9 1).1 1
      (by decide)).trans (by norm_num [specTop]),
    (C15_gather_frame specTop 0 (snapConst 7) (fun i => 2 * (i : ℚ)) 9 1).2 2 (by decide)⟩

/-- C16 as stated fails for a non-empty column: in the spec's worked case `bottom (0)`
is the elevation (2, 0), the row index being the row count, while the default trapping
elevation of the constructed store is (0, 0). -/
theorem C16_bottom_counterexample :
    bottom specTop 0 = Elevation.mk 2 0 ∧
    bottom specTop 0 ≠ Elevation.mk 0 0 ∧
    (construct specFine specTop).max_gas_elev[0]? = some (Elevation.mk 0 0) := by
  refine ⟨rfl, by decide, ?_⟩
  rw [(construct_trap specFine specTop).2]
  rfl

/-- C16 (amended): `num_rows (col)` returns the column's cell count, and `bottom (col)`
returns the elevation whose row index is that count, with offset 0 (past all rows of
the column); it is the store's default trapping elevation (row 0, offset 0) exactly
when the column is empty. -/
theorem C16_bottom_skips_all_rows (fp : IncompPropertiesInterface) (ts : TopSurf) (col : Nat)
    (hcol : col < ts.number_of_cells) :
    num_rows ts col = ts.col_cellpos (col + 1) - ts.col_cellpos col ∧
    bottom ts col = Elevation.mk (num_rows ts col) 0 ∧
    (construct fp ts).max_gas_elev[col]? = some (Elevation.mk 0 0) ∧
    ((construct fp ts).max_gas_elev[col]? = some (bottom ts col) ↔ num_rows ts col = 0) := by
  have hd : (construct fp ts).max_gas_elev[col]? = some (Elevation.mk 0 0) := by
    rw [(construct_trap fp ts).2, List.getElem?_replicate, if_pos hcol]
  refine ⟨rfl, rfl, hd, ?_⟩
  rw [hd]
  constructor
  · intro h
    have h2 : Elevation.mk 0 0 = bottom ts col := Option.some.inj h
    have h3 := congrArg Elevation.block h2
    exact h3.symm
  · intro h
    simp [bottom, h]

/-- Witness of C16 (amended): column 0 of the spec's worked case has two rows and
`bottom` is (2, 0). -/
theorem C16_bottom_skips_all_rows_witness :
    0 < specTop.number_of_cells ∧ num_rows specTop 0 = 2 ∧
    bottom specTop 0 = Elevation.mk (num_rows specTop 0) 0 :=
  ⟨by decide,
    (C16_bottom_skips_all_rows specFine specTop 0 (by decide)).1,
    (C16_bottom_skips_all_rows specFine specTop 0 (by decide)).2.1⟩

/-- C17: immediately after construction both trapping vectors have exactly
`number_of_cells` entries, and for every column below that count the stored maximum is
0 and the stored elevation is (row 0, offset 0). -/
theorem C17_initial_trapping_state (fp : IncompPropertiesInterface) (ts : TopSurf) :
    (construct fp ts).max_gas_sat.length = ts.number_of_cells ∧
    (construct fp ts).max_gas_elev.length = ts.number_of_cells ∧
    (∀ col, col < ts.number_of_cells →
      (construct fp ts).max_gas_sat[col]? = some 0 ∧
      (construct fp ts).max_gas_elev[col]? = some (Elevation.mk 0 0)) := by
  obtain ⟨t1, t2⟩ := construct_trap fp ts
  refine ⟨?_, ?_, ?_⟩
  · rw [t1, List.length_replicate]
  · rw [t2, List.length_replicate]
  · intro col hcol
    rw [t1, t2, List.getElem?_replicate, List.getElem?_replicate, if_pos hcol, if_pos hcol]
    exact ⟨rfl, rfl⟩

/-- Witness of C17: the spec's worked case, column 0. -/
theorem C17_initial_trapping_state_witness :
    0 < specTop.number_of_cells ∧
    (construct specFine specTop).max_gas_sat[0]? = some 0 ∧
    (construct specFine specTop).max_gas_elev[0]? = some (Elevation.mk 0 0) :=
  ⟨by decide, (C17_initial_trapping_state specFine specTop).2.2 0 (by decide)⟩

/-- C18: for a column with H > 0 and non-negative thicknesses and a profile built by
`wgt_dpt` from non-negative values, `find` with the target equal to the profile's value
at a row boundary returns zero fractional offset, at the earliest boundary with that
value (ties on flat segments go to the earliest qualifying row); when no earlier
boundary has the value, the row returned is the one of that boundary; and a target ≤ 0
resolves to the first row at offset 0. Boundary `b` is the start of row `b`, with the
value 0 for `b = 0` and the profile entry of row `b - 1` otherwise. -/
theorem C18_find_at_row_boundary (ts : TopSurf) (col : Nat) (val res : Ptr)
    (hH : 0 < ts.h_tot col)
    (hdz : ∀ i, i < rlw_size ts col → 0 ≤ rlw_at ts ts.dz col i)
    (hval : ∀ i, i < rlw_size ts col → 0 ≤ val i) :
    (∀ b, b ≤ num_rows ts col →
      ∃ b2, b2 ≤ b ∧
        boundaryVal (wgt_dpt ts col val res) b2 = boundaryVal (wgt_dpt ts col val res) b ∧
        (∀ j, j < b2 →
          boundaryVal (wgt_dpt ts col val res) j < boundaryVal (wgt_dpt ts col val res) b) ∧
        find ts col (wgt_dpt ts col val res) (boundaryVal (wgt_dpt ts col val res) b) =
          Elevation.mk b2 0) ∧
    (∀ b, b ≤ num_rows ts col →
      (∀ j, j < b →
        boundaryVal (wgt_dpt ts col val res) j < boundaryVal (wgt_dpt ts col val res) b) →
      find ts col (wgt_dpt ts col val res) (boundaryVal (wgt_dpt ts col val res) b) =
        Elevation.mk b 0) ∧
    (∀ (profile : Ptr) (target : ℚ), target ≤ 0 →
      find ts col profile target = Elevation.mk 0 0) := by
  obtain ⟨hnn, hmono⟩ := wgt_dpt_nonneg_mono ts col val res hH hdz hval
  refine ⟨?_, ?_, ?_⟩
  · intro b hb
    exact find_at_boundary ts col (wgt_dpt ts col val res) hnn hmono b hb
  · intro b hb hstrict
    obtain ⟨b2, hle, heq, _, hfind⟩ :=
      find_at_boundary ts col (wgt_dpt ts col val res) hnn hmono b hb
    have hb2 : b2 = b := by
      by_contra hne
      have hlt : b2 < b := lt_of_le_of_ne hle hne
      have := hstrict b2 hlt
      rw [heq] at this
      exact absurd this (lt_irrefl _)
    rw [hfind, hb2]
  · intro profile target ht
    simp [find, ht]

/-- Witness of C18: the column of the spec's worked case. The profile built from the
values 0.16, 0.16 is 0.08, 0.16, and `find` at 0.08 returns row 1 at offset 0; the
profile built from the values 1, 0 is flat, and `find` at its last boundary returns an
earlier boundary with the same value at offset 0. -/
theorem C18_find_at_row_boundary_witness :
    (0 < specTop.h_tot 0 ∧ 1 ≤ num_rows specTop 0 ∧ 2 ≤ num_rows specTop 0) ∧
    find specTop 0 (wgt_dpt specTop 0 (snapConst (4 / 25)) (snapConst 0))
        (boundaryVal (wgt_dpt specTop 0 (snapConst (4 / 25)) (snapConst 0)) 1) =
      Elevation.mk 1 0 ∧
    ∃ b2, b2 ≤ 2 ∧
      boundaryVal (wgt_dpt specTop 0 stepVal (snapConst 0)) b2 =
        boundaryVal (wgt_dpt specTop 0 stepVal (snapConst 0)) 2 ∧
      (∀ j, j < b2 →
        boundaryVal (wgt_dpt specTop 0 stepVal (snapConst 0)) j <
          boundaryVal (wgt_dpt specTop 0 stepVal (snapConst 0)) 2) ∧
      find specTop 0 (wgt_dpt specTop 0 stepVal (snapConst 0))
          (boundaryVal (wgt_dpt specTop 0 stepVal (snapConst 0)) 2) =
        Elevation.mk b2 0 :=
  ⟨⟨by norm_num [specTop], by decide, by decide⟩,
    (C18_find_at_row_boundary specTop 0 (snapConst (4 / 25)) (snapConst 0)
      (by norm_num [specTop]) (fun _ _ => by norm_num [specTop, rlw_at])
      (fun _ _ => by norm_num [snapConst])).2.1 1 (by decide)
      (fun j hj => by
        have hj0 : j = 0 := by omega
        subst hj0
        have hn : rlw_size specTop 0 = 2 := rfl
        simp only [boundaryVal]
        rw [if_pos trivial, if_neg (by decide), wgt_dpt_apply, hn]
        norm_num [Finset.sum_range_succ, snapConst, specTop, rlw_at]),
    (C18_find_at_row_boundary specTop 0 stepVal (snapConst 0)
      (by norm_num [specTop]) (fun _ _ => by norm_num [specTop, rlw_at])
      (fun i _ => by unfold stepVal; split <;> norm_num)).1 2 (by decide)⟩

/-- C19: in every store reached from construction by `upd_res_sat` calls, and for every
column, either the stored maximum is 0 and the stored elevation is the initial one
(row 0, offset 0), or the stored maximum is positive and the stored elevation is
`res_elev (col, max_gas_sat[col])`, that is
`find (col, res_wat_dpt[col], upscaled_poro[col] * max_gas_sat[col])`. -/
theorem C19_elevation_function_of_maximum (fp : IncompPropertiesInterface) (ts : TopSurf)
    (snaps : List Ptr) (col : Nat) (hcol : col < ts.number_of_cells) :
    ∃ (m : ℚ) (e : Elevation),
      (run (construct fp ts) snaps).max_gas_sat[col]? = some m ∧
      (run (construct fp ts) snaps).max_gas_elev[col]? = some e ∧
      ((m = 0 ∧ e = Elevation.mk 0 0) ∨
        (0 < m ∧ e = res_elev (run (construct fp ts) snaps) col m ∧
          e = find ts col ((run (construct fp ts) snaps).res_wat_dpt col)
            ((run (construct fp ts) snaps).upscaled_poro.getD col 0 * m))) := by
  obtain ⟨⟨_, q2, q3, _⟩, hre, hcols⟩ := run_construct_trap fp ts snaps
  obtain ⟨_, g2, g3⟩ := hcols col hcol
  have hlt : col < (run (construct fp ts) snaps).max_gas_sat.length := by rw [q3]; exact hcol
  have hm : (run (construct fp ts) snaps).max_gas_sat[col]? =
      some ((run (construct fp ts) snaps).max_gas_sat.getD col 0) := by
    simp [List.getD_eq_getElem?_getD, List.getElem?_eq_getElem hlt]
  refine ⟨(run (construct fp ts) snaps).max_gas_sat.getD col 0, _, hm, g3, ?_⟩
  by_cases h0 : (run (construct fp ts) snaps).max_gas_sat.getD col 0 = 0
  · left
    exact ⟨h0, if_pos h0⟩
  · right
    have he : (if (run (construct fp ts) snaps).max_gas_sat.getD col 0 = 0 then Elevation.mk 0 0
          else res_elev (construct fp ts) col
            ((run (construct fp ts) snaps).max_gas_sat.getD col 0)) =
        res_elev (run (construct fp ts) snaps) col
          ((run (construct fp ts) snaps).max_gas_sat.getD col 0) := by
      rw [if_neg h0, hre]
    refine ⟨lt_of_le_of_ne g2 (fun h => h0 h.symm), he, ?_⟩
    rw [he]
    show find (run (construct fp ts) snaps).ts col _ _ = _
    rw [q2]

/-- Witness of C19: the spec's worked case after the snapshots 0.25 and 0.5, column 0. -/
theorem C19_elevation_function_of_maximum_witness :
    0 < specTop.number_of_cells ∧
    ∃ (m : ℚ) (e : Elevation),
      (run (construct specFine specTop)
        [snapConst (1 / 4), snapConst (1 / 2)]).max_gas_sat[0]? = some m ∧
      (run (construct specFine specTop)
        [snapConst (1 / 4), snapConst (1 / 2)]).max_gas_elev[0]? = some e ∧
      ((m = 0 ∧ e = Elevation.mk 0 0) ∨
        (0 < m ∧
          e = res_elev (run (construct specFine specTop)
            [snapConst (1 / 4), snapConst (1 / 2)]) 0 m ∧
          e = find specTop 0
            ((run (construct specFine specTop)
              [snapConst (1 / 4), snapConst (1 / 2)]).res_wat_dpt 0)
            ((run (construct specFine specTop)
              [snapConst (1 / 4), snapConst (1 / 2)]).upscaled_poro.getD 0 0 * m))) :=
  ⟨by decide,
    C19_elevation_function_of_maximum specFine specTop [snapConst (1 / 4), snapConst (1 / 2)] 0
      (by decide)⟩

/-- C20: starting from a freshly constructed store, `upd_res_sat (a)` then
`upd_res_sat (b)` leaves the same `max_gas_sat` and `max_gas_elev` as the two calls in
the other order, and `upd_res_sat (a)` twice leaves the same as once; the stored maximum
of a column is `max (0, a[col*numPhases], b[col*numPhases])` after the two calls in
either order, and `max (0, a[col*numPhases])` after one or two calls with `a`. -/
theorem C20_update_order_independent (fp : IncompPropertiesInterface) (ts : TopSurf)
    (a b : Ptr) :
    ((upd_res_sat (upd_res_sat (construct fp ts) a) b).max_gas_sat =
        (upd_res_sat (upd_res_sat (construct fp ts) b) a).max_gas_sat ∧
      (upd_res_sat (upd_res_sat (construct fp ts) a) b).max_gas_elev =
        (upd_res_sat (upd_res_sat (construct fp ts) b) a).max_gas_elev) ∧
    ((upd_res_sat (upd_res_sat (construct fp ts) a) a).max_gas_sat =
        (upd_res_sat (construct fp ts) a).max_gas_sat ∧
      (upd_res_sat (upd_res_sat (construct fp ts) a) a).max_gas_elev =
        (upd_res_sat (construct fp ts) a).max_gas_elev) ∧
    (∀ col, col < ts.number_of_cells →
      (upd_res_sat (upd_res_sat (construct fp ts) a) b).max_gas_sat[col]? =
        some (max 0 (max (a (col * fp.numPhases + GAS)) (b (col * fp.numPhases + GAS)))) ∧
      (upd_res_sat (upd_res_sat (construct fp ts) b) a).max_gas_sat[col]? =
        some (max 0 (max (a (col * fp.numPhases + GAS)) (b (col * fp.numPhases + GAS)))) ∧
      (upd_res_sat (upd_res_sat (construct fp ts) a) a).max_gas_sat[col]? =
        some (max 0 (a (col * fp.numPhases + GAS))) ∧
      (upd_res_sat (construct fp ts) a).max_gas_sat[col]? =
        some (max 0 (a (col * fp.numPhases + GAS)))) := by
  have key : ∀ (xs : List Ptr) (col : Nat), col < ts.number_of_cells →
      (run (construct fp ts) xs).max_gas_sat[col]? =
        some (xs.foldl (fun m sn => max m (sn (col * fp.numPhases + GAS))) 0) ∧
      (run (construct fp ts) xs).max_gas_sat.getD col 0 =
        xs.foldl (fun m sn => max m (sn (col * fp.numPhases + GAS))) 0 := by
    intro xs col hcol
    obtain ⟨⟨_, _, q3, _⟩, _, hcols⟩ := run_construct_trap fp ts xs
    have hlt : col < (run (construct fp ts) xs).max_gas_sat.length := by rw [q3]; exact hcol
    have hg := (hcols col hcol).1
    refine ⟨?_, hg⟩
    rw [← hg]
    simp [List.getD_eq_getElem?_getD, List.getElem?_eq_getElem hlt]
  have hab : ∀ col, col < ts.number_of_cells →
      (run (construct fp ts) [a, b]).max_gas_sat.getD col 0 =
        (run (construct fp ts) [b, a]).max_gas_sat.getD col 0 := by
    intro col hcol
    rw [(key [a, b] col hcol).2, (key [b, a] col hcol).2]
    simp only [List.foldl]
    rw [max_assoc, max_assoc, max_comm (a _) (b _)]
  have haa : ∀ col, col < ts.number_of_cells →
      (run (construct fp ts) [a, a]).max_gas_sat.getD col 0 =
        (run (construct fp ts) [a]).max_gas_sat.getD col 0 := by
    intro col hcol
    rw [(key [a, a] col hcol).2, (key [a] col hcol).2]
    simp only [List.foldl]
    rw [max_assoc, max_self]
  refine ⟨run_trap_ext fp ts [a, b] [b, a] hab, run_trap_ext fp ts [a, a] [a] haa, ?_⟩
  intro col hcol
  refine ⟨?_, ?_, ?_, ?_⟩
  · have h := (key [a, b] col hcol).1
    simp only [List.foldl] at h
    rw [max_assoc] at h
    exact h
  · have h := (key [b, a] col hcol).1
    simp only [List.foldl] at h
    rw [max_assoc, max_comm (b _) (a _)] at h
    exact h
  · have h := (key [a, a] col hcol).1
    simp only [List.foldl] at h
    rw [max_assoc, max_self] at h
    exact h
  · have h := (key [a] col hcol).1
    simp only [List.foldl] at h
    exact h

/-- Witness of C20: the spec's worked case with the snapshots 0.5 and 0.25, column 0. -/
theorem C20_update_order_independent_witness :
    0 < specTop.number_of_cells ∧
    (upd_res_sat (upd_res_sat (construct specFine specTop) (snapConst (1 / 2)))
      (snapConst (1 / 4))).max_gas_sat[0]? =
      some (max 0 (max (snapConst (1 / 2) (0 * specFine.numPhases + GAS))
        (snapConst (1 / 4) (0 * specFine.numPhases + GAS)))) :=
  ⟨by decide,
    ((C20_update_order_independent specFine specTop (snapConst (1 / 2))
      (snapConst (1 / 4))).2.2 0 (by decide)).1⟩

end VertEq
